import Mathlib

/-!
Verification of the analytical engine of the data-analysis-ui repository.

The four analysis modules (correlation, alternative ranking methods,
early-detection forecasting, weight-sensitivity analysis) are embedded
shallowly: the numeric computations are translated to Lean functions over
`ℚ` (JavaScript numbers whose operations stay rational) and `ℝ` (where the
source uses `Math.sqrt`, `Math.log` or `Math.pow` with fractional
exponents).  Spreadsheet cells are modelled by the inductive type `Cell`:
`Cell.num q` stands for a cell whose text parses as the number `q`,
`Cell.text s` for a cell holding non-empty text that does not parse as a
number (`parseFloat` yields `NaN` on it), and `Cell.null` for an absent,
`null` or empty-string cell.
-/

/-- A spreadsheet cell.  `num q` is a numeric cell, `text s` a non-empty
non-numeric text cell (its `parseFloat` is `NaN`), `null` an absent, `null`
or empty-string cell. -/
inductive Cell where
  | num (q : ℚ)
  | text (s : String)
  | null
deriving DecidableEq

/-- The dataset abstraction handed to every analysis module:
column headers plus row-major cell values. -/
structure ExcelData where
  headers : List String
  data : List (List Cell)

/-- Models `parseFloat(cell?.toString() || '0')` followed by the `isNaN`
filter: a numeric cell parses to its value, non-numeric text to `none`
(`NaN`), and a missing/null/empty cell to `some 0` because the `|| '0'`
default string parses as zero. -/
def jsParseFloatOrZero : Cell → Option ℚ
  | Cell.num q => some q
  | Cell.text _ => none
  | Cell.null => some 0

/-- Models `parseFloat(cell?.toString() || '')`: a missing/null/empty cell
yields `parseFloat('') = NaN`, i.e. `none`. -/
def jsParseFloatOrNaN : Cell → Option ℚ
  | Cell.num q => some q
  | Cell.text _ => none
  | Cell.null => none

/-- Models `cell?.toString() || ''`. -/
def jsToStringOrEmpty : Cell → String
  | Cell.num q => toString q
  | Cell.text s => s
  | Cell.null => ""

/-- JavaScript truthiness of a cell (`!row[idx]` tests): `0`, `null`,
`undefined` and the empty string are falsy. -/
def jsTruthy : Cell → Bool
  | Cell.num q => decide (q ≠ 0)
  | Cell.text _ => true
  | Cell.null => false

/-- The cell of `row` at column `idx`; an out-of-range access is
`undefined` in JavaScript, which behaves exactly like a `null` cell. -/
def cellAt (row : List Cell) (idx : Nat) : Cell := row.getD idx Cell.null

/- ------------------------------------------------------------------ -/
/- EarlyDetection.tsx: exponential smoothing (claim C7)               -/
/- ------------------------------------------------------------------ -/

namespace ED

/-- The body of the smoothing loop of `exponentialSmoothing`: given the
previous smoothed value `prev`, each incoming observation `x` contributes
`alpha * x + (1 - alpha) * prev`. -/
def smoothStep (alpha : ℚ) (prev : ℚ) : List ℚ → List ℚ
  | [] => []
  | x :: xs => (alpha * x + (1 - alpha) * prev) :: smoothStep alpha (alpha * x + (1 - alpha) * prev) xs

/-- `exponentialSmoothing(data, alpha)` from EarlyDetection.tsx: the result
starts with `data[0]`, the loop for `i = 1 .. n-1` pushes
`alpha * data[i-1] + (1-alpha) * result[i-1]` (the loop reads
`data[0..n-2]`, i.e. `data.dropLast`), and finally the one-step-ahead
forecast `alpha * data[n-1] + (1-alpha) * result[n-1]` is appended. -/
def exponentialSmoothing (data : List ℚ) (alpha : ℚ) : List ℚ :=
  match data with
  | [] => []
  | d0 :: _ =>
    let fitted := d0 :: smoothStep alpha d0 data.dropLast
    fitted ++ [alpha * data.getLastD 0 + (1 - alpha) * fitted.getLastD 0]

theorem smoothStep_length (alpha prev : ℚ) (l : List ℚ) :
    (smoothStep alpha prev l).length = l.length := by
  induction l generalizing prev with
  | nil => rfl
  | cons x xs ih => simp [smoothStep, ih]

theorem smoothStep_getD (alpha : ℚ) (l : List ℚ) :
    ∀ (prev : ℚ) (i : Nat), i < l.length →
      (prev :: smoothStep alpha prev l).getD (i + 1) 0
        = alpha * l.getD i 0 + (1 - alpha) * (prev :: smoothStep alpha prev l).getD i 0 := by
  induction l with
  | nil => intro prev i hi; simp at hi
  | cons x xs ih =>
    intro prev i hi
    cases i with
    | zero => simp [smoothStep]
    | succ j =>
      have hj : j < xs.length := by simpa using hi
      have := ih (alpha * x + (1 - alpha) * prev) j hj
      simpa [smoothStep] using this

theorem getLastD_eq_getD {α : Type} (l : List α) (d : α) (h : l ≠ []) :
    l.getLastD d = l.getD (l.length - 1) d := by
  induction l with
  | nil => simp at h
  | cons x xs ih =>
    cases hx : xs with
    | nil => simp
    | cons y ys =>
      have hne : xs ≠ [] := by simp [hx]
      have := ih hne
      subst hx
      simpa [List.getLastD_cons] using this

theorem exponentialSmoothing_length (data : List ℚ) (alpha : ℚ) (h : data ≠ []) :
    (exponentialSmoothing data alpha).length = data.length + 1 := by
  cases data with
  | nil => simp at h
  | cons d0 rest =>
    simp [exponentialSmoothing, smoothStep_length, List.length_dropLast]

theorem dropLast_getD (l : List ℚ) (j : Nat) (hj : j < l.length - 1) :
    l.dropLast.getD j 0 = l.getD j 0 := by
  have hlen : j < l.dropLast.length := by simpa [List.length_dropLast] using hj
  have hl : j < l.length := lt_of_lt_of_le hj (Nat.sub_le _ _)
  rw [List.getD_eq_getElem _ _ hlen, List.getD_eq_getElem _ _ hl]
  exact List.getElem_dropLast l j hlen

/-- The fitted prefix of the smoothing output. -/
theorem exponentialSmoothing_fitted (data : List ℚ) (alpha : ℚ) (d0 : ℚ) (rest : List ℚ)
    (h : data = d0 :: rest) (i : Nat) (hi : i < data.length) :
    (exponentialSmoothing data alpha).getD i 0
      = (d0 :: smoothStep alpha d0 data.dropLast).getD i 0 := by
  subst h
  have hlen : i < (d0 :: smoothStep alpha d0 (d0 :: rest).dropLast).length := by
    simpa [smoothStep_length, List.length_dropLast] using hi
  simp only [exponentialSmoothing]
  exact List.getD_append _ _ _ _ hlen

theorem exponentialSmoothing_getD_zero (data : List ℚ) (alpha : ℚ) (h : data ≠ []) :
    (exponentialSmoothing data alpha).getD 0 0 = data.getD 0 0 := by
  cases data with
  | nil => simp at h
  | cons d0 rest =>
    have := exponentialSmoothing_fitted (d0 :: rest) alpha d0 rest rfl 0 (by simp)
    simpa using this

theorem exponentialSmoothing_rec (data : List ℚ) (alpha : ℚ) (i : Nat)
    (hpos : 0 < i) (hi : i < data.length) :
    (exponentialSmoothing data alpha).getD i 0
      = alpha * data.getD (i - 1) 0
        + (1 - alpha) * (exponentialSmoothing data alpha).getD (i - 1) 0 := by
  cases data with
  | nil => simp at hi
  | cons d0 rest =>
    obtain ⟨j, rfl⟩ : ∃ j, i = j + 1 := ⟨i - 1, (Nat.succ_pred_eq_of_pos hpos).symm⟩
    have hj : j < (d0 :: rest).dropLast.length := by
      have h2 : j + 1 < rest.length + 1 := by simpa using hi
      simp only [List.length_dropLast, List.length_cons]
      omega
    have hij : j < (d0 :: rest).length := Nat.lt_of_succ_lt hi
    rw [exponentialSmoothing_fitted (d0 :: rest) alpha d0 rest rfl (j + 1) hi]
    rw [show j + 1 - 1 = j from rfl]
    rw [exponentialSmoothing_fitted (d0 :: rest) alpha d0 rest rfl j hij]
    rw [smoothStep_getD alpha _ d0 j hj]
    rw [dropLast_getD _ j (by simpa [List.length_dropLast] using hj)]

theorem exponentialSmoothing_forecast (data : List ℚ) (alpha : ℚ) (h : data ≠ []) :
    (exponentialSmoothing data alpha).getD data.length 0
      = alpha * data.getD (data.length - 1) 0
        + (1 - alpha) * (exponentialSmoothing data alpha).getD (data.length - 1) 0 := by
  cases data with
  | nil => simp at h
  | cons d0 rest =>
    have hn : 0 < (d0 :: rest).length := by simp
    have hfl : (d0 :: smoothStep alpha d0 (d0 :: rest).dropLast).length = (d0 :: rest).length := by
      simp [smoothStep_length, List.length_dropLast]
    have hne : (d0 :: smoothStep alpha d0 (d0 :: rest).dropLast) ≠ [] := by simp
    have hstep : (exponentialSmoothing (d0 :: rest) alpha).getD ((d0 :: rest).length) 0
        = alpha * (d0 :: rest).getLastD 0
          + (1 - alpha) * (d0 :: smoothStep alpha d0 (d0 :: rest).dropLast).getLastD 0 := by
      simp only [exponentialSmoothing]
      rw [List.getD_append_right _ _ _ _ (le_of_eq hfl)]
      simp [hfl]
    rw [hstep, getLastD_eq_getD _ 0 (by simp), getLastD_eq_getD _ 0 hne, hfl]
    rw [exponentialSmoothing_fitted (d0 :: rest) alpha d0 rest rfl ((d0 :: rest).length - 1)
      (Nat.sub_lt hn Nat.one_pos)]

/-- Claim C7: for every non-empty observed sequence and every smoothing
factor, the output of `exponentialSmoothing` satisfies
`fitted[0] = observed[0]`,
`fitted[i] = alpha * observed[i-1] + (1-alpha) * fitted[i-1]` for
`1 ≤ i < n`, and the appended one-step forecast (at index `n`) equals
`alpha * observed[n-1] + (1-alpha) * fitted[n-1]`; consequently with
`alpha = 0` every fitted value equals `observed[0]`, and with `alpha = 1`
every fitted value at `i ≥ 1` equals `observed[i-1]`. -/
theorem C7_exponential_smoothing (data : List ℚ) (alpha : ℚ) (h : data ≠ []) :
    (exponentialSmoothing data alpha).getD 0 0 = data.getD 0 0 ∧
    (∀ i, 0 < i → i < data.length →
      (exponentialSmoothing data alpha).getD i 0
        = alpha * data.getD (i - 1) 0
          + (1 - alpha) * (exponentialSmoothing data alpha).getD (i - 1) 0) ∧
    ((exponentialSmoothing data alpha).getD data.length 0
      = alpha * data.getD (data.length - 1) 0
        + (1 - alpha) * (exponentialSmoothing data alpha).getD (data.length - 1) 0) ∧
    (alpha = 0 → ∀ i, i < data.length →
      (exponentialSmoothing data alpha).getD i 0 = data.getD 0 0) ∧
    (alpha = 1 → ∀ i, 0 < i → i < data.length →
      (exponentialSmoothing data alpha).getD i 0 = data.getD (i - 1) 0) := by
  refine ⟨exponentialSmoothing_getD_zero data alpha h,
    fun i hpos hi => exponentialSmoothing_rec data alpha i hpos hi,
    exponentialSmoothing_forecast data alpha h, ?_, ?_⟩
  · rintro rfl i hi
    induction i with
    | zero => exact exponentialSmoothing_getD_zero data 0 h
    | succ j ih =>
      have hj : j < data.length := Nat.lt_of_succ_lt hi
      have := exponentialSmoothing_rec data 0 (j + 1) (Nat.succ_pos j) hi
      rw [this]
      simpa using ih hj
  · rintro rfl i hpos hi
    have := exponentialSmoothing_rec data 1 i hpos hi
    rw [this]
    ring

/-- Witness for C7 at the concrete sequence `[1, 2, 3]` with `alpha = 1/2`. -/
theorem C7_exponential_smoothing_witness :
    ([1, 2, 3] : List ℚ) ≠ [] ∧
    ((exponentialSmoothing [1, 2, 3] (1/2)).getD 0 0 = ([1, 2, 3] : List ℚ).getD 0 0 ∧
    (∀ i, 0 < i → i < ([1, 2, 3] : List ℚ).length →
      (exponentialSmoothing [1, 2, 3] (1/2)).getD i 0
        = (1/2) * ([1, 2, 3] : List ℚ).getD (i - 1) 0
          + (1 - 1/2) * (exponentialSmoothing [1, 2, 3] (1/2)).getD (i - 1) 0) ∧
    ((exponentialSmoothing [1, 2, 3] (1/2)).getD ([1, 2, 3] : List ℚ).length 0
      = (1/2) * ([1, 2, 3] : List ℚ).getD (([1, 2, 3] : List ℚ).length - 1) 0
        + (1 - 1/2) * (exponentialSmoothing [1, 2, 3] (1/2)).getD (([1, 2, 3] : List ℚ).length - 1) 0) ∧
    ((1/2 : ℚ) = 0 → ∀ i, i < ([1, 2, 3] : List ℚ).length →
      (exponentialSmoothing [1, 2, 3] (1/2)).getD i 0 = ([1, 2, 3] : List ℚ).getD 0 0) ∧
    ((1/2 : ℚ) = 1 → ∀ i, 0 < i → i < ([1, 2, 3] : List ℚ).length →
      (exponentialSmoothing [1, 2, 3] (1/2)).getD i 0 = ([1, 2, 3] : List ℚ).getD (i - 1) 0)) :=
  ⟨by decide, C7_exponential_smoothing [1, 2, 3] (1/2) (by decide)⟩

end ED

/- ------------------------------------------------------------------ -/
/- SensitivityAnalysis.tsx: runSensitivityAnalysis (claim C1)         -/
/- ------------------------------------------------------------------ -/

namespace Sens

/-- The optimization goal selector of SensitivityAnalysis.tsx. -/
inductive OptGoal where
  | maximize
  | minimize
deriving DecidableEq

/-- `origWeights[c] || 0`: the weight map is a JavaScript object built by
`selectedCategories.forEach(cat => origWeights[cat.category] = cat.weight)`,
so on duplicate keys the last entry wins and absent keys read as 0. -/
def origW (selected : List (String × ℚ)) (c : String) : ℚ :=
  ((selected.reverse.find? (fun p => p.1 = c)).map Prod.snd).getD 0

/-- `selectedCategories.filter(c => c.category !== targetCategory)`. -/
def otherCategories (selected : List (String × ℚ)) (target : String) : List (String × ℚ) :=
  selected.filter (fun p => p.1 ≠ target)

/-- `otherCategories.reduce((sum, c) => sum + origWeights[c.category], 0)`. -/
def totalOtherWeight (selected : List (String × ℚ)) (target : String) : ℚ :=
  ((otherCategories selected target).map (fun p => origW selected p.1)).sum

/-- The new target weight: `Math.min(0.9, targetCurrentWeight * 2)` when
maximizing, `Math.max(0.1, targetCurrentWeight / 2)` when minimizing. -/
def bestTargetWeight (selected : List (String × ℚ)) (target : String) (goal : OptGoal) : ℚ :=
  match goal with
  | OptGoal.maximize => min (9/10) (origW selected target * 2)
  | OptGoal.minimize => max (1/10) (origW selected target / 2)

/-- The weight-reallocation core of `runSensitivityAnalysis`:
the target category receives `bestTargetWeight`; every other selected
category receives `remainingWeight * ratio`, with
`ratio = origWeights[c] / totalOtherWeight` when `totalOtherWeight > 0`
and the equal split `1 / otherCategories.length` otherwise.
(The surrounding validation comparing `selectedCategories.length` with 2
and requiring a target is expressed as hypotheses of the theorems; the
absolute-change map `y` and the recomputed supplier scores are not
referenced by the claims.) -/
def runSensitivityWeights (selected : List (String × ℚ)) (target : String)
    (goal : OptGoal) : List (String × ℚ) :=
  let best := bestTargetWeight selected target goal
  let remaining := 1 - best
  let others := otherCategories selected target
  selected.map (fun p =>
    if p.1 = target then (p.1, best)
    else (p.1, remaining *
      (if 0 < totalOtherWeight selected target
        then origW selected p.1 / totalOtherWeight selected target
        else 1 / (others.length : ℚ))))

theorem find?_eq_of_key_nodup (l : List (String × ℚ)) (p : String × ℚ)
    (hp : p ∈ l) (hnd : (l.map Prod.fst).Nodup) :
    l.find? (fun q => q.1 = p.1) = some p := by
  induction l with
  | nil => simp at hp
  | cons q rest ih =>
    rcases List.mem_cons.mp hp with rfl | hmem
    · simp [List.find?]
    · have hnd' : (rest.map Prod.fst).Nodup := (List.nodup_cons.mp hnd).2
      have hq : q.1 ∉ rest.map Prod.fst := (List.nodup_cons.mp hnd).1
      have hne : ¬(q.1 = p.1) := by
        intro hcontra
        exact hq (hcontra ▸ List.mem_map_of_mem Prod.fst hmem)
      simp only [List.find?]
      rw [show (decide (q.1 = p.1)) = false by simp [hne]]
      exact ih hmem hnd'

theorem origW_eq (selected : List (String × ℚ)) (p : String × ℚ)
    (hp : p ∈ selected) (hnd : (selected.map Prod.fst).Nodup) :
    origW selected p.1 = p.2 := by
  have hrev : selected.reverse.find? (fun q => q.1 = p.1) = some p :=
    find?_eq_of_key_nodup selected.reverse p (List.mem_reverse.mpr hp)
      (by rw [List.map_reverse]; exact List.nodup_reverse.mpr hnd)
  simp [origW, hrev]

theorem sum_map_filter_split (l : List (String × ℚ)) (f : String × ℚ → ℚ)
    (q : String × ℚ → Bool) :
    ((l.filter q).map f).sum + ((l.filter (fun x => !(q x))).map f).sum
      = (l.map f).sum := by
  induction l with
  | nil => simp
  | cons x rest ih =>
    by_cases hx : q x
    · simp [List.filter_cons, hx, ← ih]; ring
    · simp [List.filter_cons, hx, ← ih]; ring

theorem filter_target_single (selected : List (String × ℚ)) (target : String)
    (hnd : (selected.map Prod.fst).Nodup) (hmem : target ∈ selected.map Prod.fst) :
    ∃ w, selected.filter (fun p => p.1 = target) = [(target, w)] := by
  induction selected with
  | nil => simp at hmem
  | cons q rest ih =>
    have hnd' : (rest.map Prod.fst).Nodup := (List.nodup_cons.mp hnd).2
    have hq : q.1 ∉ rest.map Prod.fst := (List.nodup_cons.mp hnd).1
    by_cases hqt : q.1 = target
    · obtain ⟨qa, qb⟩ := q
      simp only at hqt hq
      subst hqt
      refine ⟨qb, ?_⟩
      have hrest : rest.filter (fun p => p.1 = qa) = [] := by
        rw [List.filter_eq_nil_iff]
        intro p hp hcontra
        apply hq
        have hpa : p.1 = qa := by simpa using hcontra
        exact hpa ▸ List.mem_map_of_mem Prod.fst hp
      simp [List.filter_cons, hrest]
    · have hmem' : target ∈ rest.map Prod.fst := by
        rcases List.mem_map.mp hmem with ⟨p, hp, hpt⟩
        rcases List.mem_cons.mp hp with rfl | hpm
        · exact absurd hpt hqt
        · exact hpt ▸ List.mem_map_of_mem Prod.fst hpm
      rcases ih hnd' hmem' with ⟨w, hw⟩
      exact ⟨w, by simp [List.filter_cons, hqt, hw]⟩

theorem length_filter_split (l : List (String × ℚ)) (q : String × ℚ → Bool) :
    (l.filter q).length + (l.filter (fun x => !(q x))).length = l.length := by
  induction l with
  | nil => simp
  | cons x rest ih =>
    by_cases hx : q x
    · simp [List.filter_cons, hx, ← ih]; omega
    · simp [List.filter_cons, hx, ← ih]; omega

theorem otherCategories_eq (selected : List (String × ℚ)) (target : String) :
    otherCategories selected target
      = selected.filter (fun x => !(decide (x.1 = target))) := by
  unfold otherCategories
  apply List.filter_congr
  intro a _
  simp [decide_not]

/-- Claim C1 (amended): under the stated weight-map invariants the new
target weight follows the `min(0.9, w*2)` / `max(0.1, w/2)` rule and the
output weights sum to exactly 1 (hence within 1e-6); the target weight
never exceeds 0.9 and is at least 0.1 when minimizing, but when maximizing
it is `min(0.9, 2w)`, which drops below 0.1 whenever the current target
weight is below 0.05 — the 0.1 floor holds for maximize only under
`0.05 ≤ w`. -/
theorem C1_sensitivity_optimizer_amended
    (selected : List (String × ℚ)) (target : String) (goal : OptGoal)
    (hnd : (selected.map Prod.fst).Nodup)
    (hmem : target ∈ selected.map Prod.fst)
    (hlen : 2 ≤ selected.length)
    (hsum : (selected.map Prod.snd).sum = 1)
    (hpos : ∀ p ∈ selected, 0 ≤ p.2) :
    (∀ p ∈ runSensitivityWeights selected target goal, p.1 = target →
      (goal = OptGoal.maximize → p.2 = min (9/10) (origW selected target * 2)) ∧
      (goal = OptGoal.minimize → p.2 = max (1/10) (origW selected target / 2)) ∧
      p.2 ≤ 9/10 ∧
      (goal = OptGoal.minimize → 1/10 ≤ p.2) ∧
      (goal = OptGoal.maximize → 1/20 ≤ origW selected target → 1/10 ≤ p.2)) ∧
    ((runSensitivityWeights selected target goal).map Prod.snd).sum = 1 ∧
    |((runSensitivityWeights selected target goal).map Prod.snd).sum - 1| ≤ 1/1000000 := by
  obtain ⟨w, hfil⟩ := filter_target_single selected target hnd hmem
  have hwmem : (target, w) ∈ selected := by
    apply List.mem_of_mem_filter (p := fun p => decide (p.1 = target))
    rw [hfil]; exact List.mem_singleton.mpr rfl
  have hOW : origW selected target = w := origW_eq selected (target, w) hwmem hnd
  -- split of the input sum
  have hsplit := sum_map_filter_split selected Prod.snd (fun p => decide (p.1 = target))
  rw [hfil, hsum] at hsplit
  have hothersum :
      ((selected.filter (fun x => !(decide (x.1 = target)))).map Prod.snd).sum = 1 - w := by
    simp at hsplit; linarith
  have hothernn :
      0 ≤ ((selected.filter (fun x => !(decide (x.1 = target)))).map Prod.snd).sum := by
    apply List.sum_nonneg
    intro x hx
    rcases List.mem_map.mp hx with ⟨p, hp, rfl⟩
    exact hpos p (List.mem_of_mem_filter hp)
  have hw1 : w ≤ 1 := by linarith
  have hw0 : 0 ≤ w := hpos (target, w) hwmem
  -- bounds on the best target weight
  have hbest_le : bestTargetWeight selected target goal ≤ 9/10 := by
    cases goal with
    | maximize => exact min_le_left _ _
    | minimize =>
      apply max_le (by norm_num)
      rw [hOW]; linarith
  have hbest_min : goal = OptGoal.minimize → 1/10 ≤ bestTargetWeight selected target goal := by
    rintro rfl
    exact le_max_left _ _
  have hbest_max : goal = OptGoal.maximize → 1/20 ≤ origW selected target →
      1/10 ≤ bestTargetWeight selected target goal := by
    rintro rfl hw
    exact le_min (by norm_num) (by linarith)
  have hsum_out : ((runSensitivityWeights selected target goal).map Prod.snd).sum = 1 := by
    have hmapmap : ((runSensitivityWeights selected target goal).map Prod.snd)
        = selected.map (fun p => if p.1 = target
            then bestTargetWeight selected target goal
            else (1 - bestTargetWeight selected target goal) *
              (if 0 < totalOtherWeight selected target
                then origW selected p.1 / totalOtherWeight selected target
                else 1 / ((otherCategories selected target).length : ℚ))) := by
      unfold runSensitivityWeights
      rw [List.map_map]
      apply List.map_congr_left
      intro p _
      by_cases hpt : p.1 = target
      · simp [hpt]
      · simp [hpt]
    rw [hmapmap]
    rw [← sum_map_filter_split selected _ (fun p => decide (p.1 = target)), hfil]
    have htermA : ([((target : String), w)].map (fun p => if p.1 = target
        then bestTargetWeight selected target goal
        else (1 - bestTargetWeight selected target goal) *
          (if 0 < totalOtherWeight selected target
            then origW selected p.1 / totalOtherWeight selected target
            else 1 / ((otherCategories selected target).length : ℚ)))).sum
        = bestTargetWeight selected target goal := by
      simp
    rw [htermA]
    have hcongrB : ((selected.filter (fun x => !(decide (x.1 = target)))).map
        (fun p => if p.1 = target
          then bestTargetWeight selected target goal
          else (1 - bestTargetWeight selected target goal) *
            (if 0 < totalOtherWeight selected target
              then origW selected p.1 / totalOtherWeight selected target
              else 1 / ((otherCategories selected target).length : ℚ))))
        = ((selected.filter (fun x => !(decide (x.1 = target)))).map
        (fun p => (1 - bestTargetWeight selected target goal) *
            (if 0 < totalOtherWeight selected target
              then origW selected p.1 / totalOtherWeight selected target
              else 1 / ((otherCategories selected target).length : ℚ)))) := by
      apply List.map_congr_left
      intro p hp
      have hpt : ¬(p.1 = target) := by
        have := List.of_mem_filter hp
        simpa using this
      rw [if_neg hpt]
    rw [hcongrB]
    by_cases hT : 0 < totalOtherWeight selected target
    · simp only [if_pos hT]
      have hfactor : ((selected.filter (fun x => !(decide (x.1 = target)))).map
          (fun p => (1 - bestTargetWeight selected target goal) *
            (origW selected p.1 / totalOtherWeight selected target)))
          = ((selected.filter (fun x => !(decide (x.1 = target)))).map
          (fun p => ((1 - bestTargetWeight selected target goal) /
              totalOtherWeight selected target) * origW selected p.1)) := by
        apply List.map_congr_left
        intro p _
        ring
      rw [hfactor, List.sum_map_mul_left]
      have hTdef : ((selected.filter (fun x => !(decide (x.1 = target)))).map
          (fun p => origW selected p.1)).sum = totalOtherWeight selected target := by
        unfold totalOtherWeight
        rw [otherCategories_eq]
      rw [hTdef, div_mul_cancel₀ _ (ne_of_gt hT)]
      ring
    · simp only [if_neg hT]
      have hconst : ((selected.filter (fun x => !(decide (x.1 = target)))).map
          (fun _ => (1 - bestTargetWeight selected target goal) *
            (1 / ((otherCategories selected target).length : ℚ)))).sum
          = ((selected.filter (fun x => !(decide (x.1 = target)))).length : ℚ) *
            ((1 - bestTargetWeight selected target goal) *
              (1 / ((otherCategories selected target).length : ℚ))) := by
        simp [List.map_const]
      rw [hconst]
      have hlenpos : 1 ≤ (selected.filter (fun x => !(decide (x.1 = target)))).length := by
        have := length_filter_split selected (fun p => decide (p.1 = target))
        rw [hfil] at this
        simp at this
        omega
      have hlen_eq : ((otherCategories selected target).length : ℚ)
          = ((selected.filter (fun x => !(decide (x.1 = target)))).length : ℚ) := by
        rw [otherCategories_eq]
      rw [hlen_eq]
      have hne : ((selected.filter (fun x => !(decide (x.1 = target)))).length : ℚ) ≠ 0 := by
        have : (0 : ℚ) < ((selected.filter (fun x => !(decide (x.1 = target)))).length : ℚ) := by
          exact_mod_cast Nat.lt_of_lt_of_le Nat.zero_lt_one hlenpos
        exact ne_of_gt this
      field_simp
  refine ⟨?_, hsum_out, by rw [hsum_out]; norm_num⟩
  intro p hp hpt
  rcases List.mem_map.mp hp with ⟨q, hq, rfl⟩
  by_cases hqt : q.1 = target
  · simp only [hqt, if_pos rfl] at hpt ⊢
    refine ⟨?_, ?_, ?_, ?_, ?_⟩
    · rintro rfl; simp [bestTargetWeight]
    · rintro rfl; simp [bestTargetWeight]
    · exact hbest_le
    · exact hbest_min
    · exact hbest_max
  · simp only [if_neg hqt] at hpt
    exact absurd hpt hqt

end Sens

/- ------------------------------------------------------------------ -/
/- CorrelationAnalysis.tsx: roundLambda (claim C8)                    -/
/- ------------------------------------------------------------------ -/

namespace Corr

/-- The fixed list of interpretable lambda values scanned by
`roundLambda`, in source order (ascending). -/
def commonLambdas : List ℚ := [-2, -1, -1/2, 0, 1/2, 1, 2, 3]

/-- One iteration of the `roundLambda` loop: the running pair
`(closestLambda, minDiff)` is replaced only when the candidate is
strictly closer (`diff < minDiff`). -/
def roundStep (lambda : ℚ) (acc : ℚ × ℚ) (l : ℚ) : ℚ × ℚ :=
  if |lambda - l| < acc.2 then (l, |lambda - l|) else acc

/-- `roundLambda` from CorrelationAnalysis.tsx: the scan starts from the
candidate `closestLambda = 1` with `minDiff = |lambda - 1|` and walks the
`commonLambdas` list. -/
def roundLambda (lambda : ℚ) : ℚ :=
  (commonLambdas.foldl (roundStep lambda) (1, |lambda - 1|)).1

/-- Invariant of the `roundLambda` fold: starting from candidate `c`, the
final pair tracks its own distance, the result comes from `c` or the list,
distances never increase, the final distance is minimal, no strict
improvement means the candidate survives, and a tie with a list element
can only be resolved by `c` or an element at or before that position. -/
theorem roundFold_inv (lambda : ℚ) (ls : List ℚ) (c : ℚ) :
    (ls.foldl (roundStep lambda) (c, |lambda - c|)).2
        = |lambda - (ls.foldl (roundStep lambda) (c, |lambda - c|)).1| ∧
    ((ls.foldl (roundStep lambda) (c, |lambda - c|)).1 = c ∨
      (ls.foldl (roundStep lambda) (c, |lambda - c|)).1 ∈ ls) ∧
    (ls.foldl (roundStep lambda) (c, |lambda - c|)).2 ≤ |lambda - c| ∧
    (∀ l ∈ ls, (ls.foldl (roundStep lambda) (c, |lambda - c|)).2 ≤ |lambda - l|) ∧
    (|lambda - c| ≤ (ls.foldl (roundStep lambda) (c, |lambda - c|)).2 →
      (ls.foldl (roundStep lambda) (c, |lambda - c|)).1 = c) ∧
    (∀ ls₁ l ls₂, ls = ls₁ ++ l :: ls₂ →
      |lambda - l| = (ls.foldl (roundStep lambda) (c, |lambda - c|)).2 →
      (ls.foldl (roundStep lambda) (c, |lambda - c|)).1 = c ∨
      (ls.foldl (roundStep lambda) (c, |lambda - c|)).1 ∈ ls₁ ∨
      (ls.foldl (roundStep lambda) (c, |lambda - c|)).1 = l) := by
  induction ls generalizing c with
  | nil =>
    refine ⟨rfl, Or.inl rfl, le_refl _, by simp, fun _ => rfl, ?_⟩
    intro ls₁ l ls₂ habs
    exact absurd habs (by simp)
  | cons x ls' ih =>
    by_cases hx : |lambda - x| < |lambda - c|
    · have hfold : (x :: ls').foldl (roundStep lambda) (c, |lambda - c|)
          = ls'.foldl (roundStep lambda) (x, |lambda - x|) := by
        simp [List.foldl, roundStep, hx]
      obtain ⟨i1, i2, i3, i4, i5, i6⟩ := ih x
      rw [hfold]
      refine ⟨i1, ?_, ?_, ?_, ?_, ?_⟩
      · rcases i2 with h | h
        · exact Or.inr (by rw [h]; exact List.mem_cons_self x ls')
        · exact Or.inr (List.mem_cons_of_mem x h)
      · exact le_of_lt (lt_of_le_of_lt i3 hx)
      · intro l hl
        rcases List.mem_cons.mp hl with rfl | hl'
        · exact i3
        · exact i4 l hl'
      · intro hle
        exact ((lt_irrefl _ (lt_of_le_of_lt (le_trans hle i3) hx)).elim)
      · intro ls₁ l ls₂ heq htie
        cases ls₁ with
        | nil =>
          simp only [List.nil_append] at heq
          obtain ⟨rfl, rfl⟩ := List.cons.inj heq
          right; right
          exact i5 (le_of_eq htie)
        | cons y ls₁' =>
          simp only [List.cons_append] at heq
          obtain ⟨rfl, hls⟩ := List.cons.inj heq
          rcases i6 ls₁' l ls₂ hls htie with h | h | h
          · exact Or.inr (Or.inl (by rw [h]; exact List.mem_cons_self x ls₁'))
          · exact Or.inr (Or.inl (List.mem_cons_of_mem x h))
          · exact Or.inr (Or.inr h)
    · have hfold : (x :: ls').foldl (roundStep lambda) (c, |lambda - c|)
          = ls'.foldl (roundStep lambda) (c, |lambda - c|) := by
        simp [List.foldl, roundStep, hx]
      obtain ⟨i1, i2, i3, i4, i5, i6⟩ := ih c
      rw [hfold]
      refine ⟨i1, ?_, i3, ?_, i5, ?_⟩
      · rcases i2 with h | h
        · exact Or.inl h
        · exact Or.inr (List.mem_cons_of_mem x h)
      · intro l hl
        rcases List.mem_cons.mp hl with rfl | hl'
        · exact le_trans i3 (le_of_not_lt hx)
        · exact i4 l hl'
      · intro ls₁ l ls₂ heq htie
        cases ls₁ with
        | nil =>
          simp only [List.nil_append] at heq
          obtain ⟨rfl, rfl⟩ := List.cons.inj heq
          exact Or.inl (i5 (htie ▸ le_of_not_lt hx))
        | cons y ls₁' =>
          simp only [List.cons_append] at heq
          obtain ⟨rfl, hls⟩ := List.cons.inj heq
          rcases i6 ls₁' l ls₂ hls htie with h | h | h
          · exact Or.inl h
          · exact Or.inr (Or.inl (List.mem_cons_of_mem x h))
          · exact Or.inr (Or.inr h)

/-- The numeric values of column `idx` as extracted by
`extractVariableData`:
`excelData.data.map(row => parseFloat(row[columnIndex]?.toString() || '0')).filter(val => !isNaN(val))`.
Mapping to an `Option` and dropping the `none`s is exactly
map-then-filter-out-`NaN`. -/
def extractColumnOrZero (d : ExcelData) (idx : Nat) : List ℚ :=
  (d.data.map (fun row => jsParseFloatOrZero (cellAt row idx))).reduceOption

/-- `extractVariableData` from CorrelationAnalysis.tsx, restricted to the
numeric series it builds: per selected variable it resolves the column
(`indexOf === -1`, modelled as `indexOf = headers.length`, aborts with a
"not found" error), extracts the numeric values, and aborts with the
"contains no numeric data" error when none survive.  The per-variable
statistics it also computes are not referenced by the claims and are
embedded separately where needed. -/
def extractVariableData (d : ExcelData) :
    List String → Except String (List (String × List ℚ))
  | [] => Except.ok []
  | v :: rest =>
    let columnIndex := d.headers.indexOf v
    if columnIndex = d.headers.length then
      Except.error ("Variable '" ++ v ++ "' not found in data.")
    else
      let values := extractColumnOrZero d columnIndex
      if values = [] then
        Except.error ("Variable '" ++ v ++ "' contains no numeric data.")
      else
        match extractVariableData d rest with
        | Except.error e => Except.error e
        | Except.ok m => Except.ok ((v, values) :: m)

theorem extractColumnOrZero_filterMap (d : ExcelData) (idx : Nat) :
    extractColumnOrZero d idx
      = d.data.filterMap (fun row => jsParseFloatOrZero (cellAt row idx)) := by
  simp only [extractColumnOrZero, List.reduceOption, List.filterMap_map]
  rfl

theorem extractVariableData_ok (d : ExcelData) :
    ∀ (vars : List String) (m : List (String × List ℚ)),
      extractVariableData d vars = Except.ok m →
      m.map Prod.fst = vars ∧
      ∀ p ∈ m, p.2 = extractColumnOrZero d (d.headers.indexOf p.1) ∧ p.2 ≠ [] := by
  intro vars
  induction vars with
  | nil =>
    intro m h
    simp only [extractVariableData] at h
    obtain rfl := (Except.ok.injEq _ _ ▸ h).symm
    exact ⟨rfl, by simp⟩
  | cons v rest ih =>
    intro m h
    simp only [extractVariableData] at h
    by_cases h1 : d.headers.indexOf v = d.headers.length
    · rw [if_pos h1] at h
      exact absurd h (by simp)
    · rw [if_neg h1] at h
      by_cases h2 : extractColumnOrZero d (d.headers.indexOf v) = []
      · rw [if_pos h2] at h
        exact absurd h (by simp)
      · rw [if_neg h2] at h
        cases hrest : extractVariableData d rest with
        | error e => rw [hrest] at h; exact absurd h (by simp)
        | ok m' =>
          rw [hrest] at h
          obtain rfl : (v, extractColumnOrZero d (d.headers.indexOf v)) :: m' = m := by
            simpa using h
          obtain ⟨ihm, ihp⟩ := ih m' hrest
          refine ⟨by simp [ihm], ?_⟩
          intro p hp
          rcases List.mem_cons.mp hp with rfl | hp'
          · exact ⟨rfl, h2⟩
          · exact ihp p hp'

theorem extractVariableData_error (d : ExcelData) :
    ∀ (vars : List String) (e : String),
      extractVariableData d vars = Except.error e →
      ∃ v ∈ vars,
        (e = "Variable '" ++ v ++ "' not found in data."
          ∧ d.headers.indexOf v = d.headers.length) ∨
        (e = "Variable '" ++ v ++ "' contains no numeric data."
          ∧ extractColumnOrZero d (d.headers.indexOf v) = []) := by
  intro vars
  induction vars with
  | nil =>
    intro e h
    simp only [extractVariableData] at h
    exact absurd h (by simp)
  | cons v rest ih =>
    intro e h
    simp only [extractVariableData] at h
    by_cases h1 : d.headers.indexOf v = d.headers.length
    · rw [if_pos h1] at h
      refine ⟨v, List.mem_cons_self v rest, Or.inl ⟨?_, h1⟩⟩
      simpa using h.symm
    · rw [if_neg h1] at h
      by_cases h2 : extractColumnOrZero d (d.headers.indexOf v) = []
      · rw [if_pos h2] at h
        refine ⟨v, List.mem_cons_self v rest, Or.inr ⟨?_, h2⟩⟩
        simpa using h.symm
      · rw [if_neg h2] at h
        cases hrest : extractVariableData d rest with
        | error e' =>
          rw [hrest] at h
          have he : e' = e := by simpa using h
          rw [he] at hrest
          obtain ⟨v', hv', hcase⟩ := ih e hrest
          exact ⟨v', List.mem_cons_of_mem v hv', hcase⟩
        | ok m' =>
          rw [hrest] at h
          exact absurd h (by simp)

theorem commonLambdas_sorted : commonLambdas.Pairwise (· ≤ ·) := by
  norm_num [commonLambdas, List.pairwise_cons]

theorem one_mem_commonLambdas : (1 : ℚ) ∈ commonLambdas := by
  norm_num [commonLambdas]

end Corr

/- ------------------------------------------------------------------ -/
/- AlternativeMethods.tsx: ranking engine (claims C2, C5, C10)        -/
/- ------------------------------------------------------------------ -/

namespace Rank

/-- The two ranking strategies of AlternativeMethods.tsx. -/
inductive AnalysisMethod where
  | topsis
  | euclidean
deriving DecidableEq

/-- `excelData.data.map(row => row[evaluationColumnIndex]?.toString() || '')`:
one identifier string per row, the empty string for missing cells. -/
def getSuppliers (d : ExcelData) (idx : Nat) : List String :=
  d.data.map (fun row => jsToStringOrEmpty (cellAt row idx))

/-- The criteria-extraction loop shared verbatim by `performTOPSIS` and
`performEuclideanDistance`: per selected criterion resolve the column and
extract its numeric values with the same
`parseFloat(... || '0')` / `isNaN`-filter recipe as the correlation module
(`Corr.extractColumnOrZero`), failing with a named error on an absent
column or an empty extraction. -/
def extractCriteria (d : ExcelData) :
    List String → Except String (List (String × List ℚ))
  | [] => Except.ok []
  | c :: rest =>
    let columnIndex := d.headers.indexOf c
    if columnIndex = d.headers.length then
      Except.error ("Criterion '" ++ c ++ "' not found.")
    else
      let values := Corr.extractColumnOrZero d columnIndex
      if values = [] then
        Except.error ("Criterion '" ++ c ++ "' contains no numeric data.")
      else
        match extractCriteria d rest with
        | Except.error e => Except.error e
        | Except.ok m => Except.ok ((c, values) :: m)

/-- Lookup in a JavaScript object built by successive assignments from an
association list: the last assignment to a key wins, absent keys read as
the supplied default. -/
def jsLookup {α : Type} (m : List (String × α)) (c : String) (dflt : α) : α :=
  ((m.reverse.find? (fun p => p.1 = c)).map Prod.snd).getD dflt

/-- `getNormalizedWeights`: converts the `criteriaWeights` array into the
object mapping criterion name to weight (despite its name it performs no
normalization). -/
def getNormalizedWeights (cw : List (String × ℚ)) : String → ℚ :=
  fun c => jsLookup cw c 0

/-- `distributeRemainingWeight`: the explicit redistribution operation.
Nothing happens when the list is empty or the sum is exactly 1 or 0;
when every weight is zero the weights become the equal split; otherwise
the remainder `1 - sum` is distributed over the non-zero weights in
proportion to their share of the non-zero total. -/
def distributeRemainingWeight (cw : List (String × ℚ)) : List (String × ℚ) :=
  if cw.length = 0 then cw
  else
    let s := (cw.map Prod.snd).sum
    if s = 1 ∨ s = 0 then cw
    else
      let nonZero := cw.filter (fun p => 0 < p.2)
      if nonZero.length = 0 then
        cw.map (fun p => (p.1, 1 / (cw.length : ℚ)))
      else
        let totalNonZero := (nonZero.map Prod.snd).sum
        cw.map (fun p =>
          if p.2 = 0 then p
          else (p.1, p.2 + (1 - s) * (p.2 / totalNonZero)))

/-- `calculateOriginalRankings`, first half: the weighted-average score per
supplier row; rows whose every criterion column is too short (no valid
value) are skipped.  After the `isNaN` filter every stored value is a
number, so the `!isNaN(values[i])` test only the `i < values.length`
bound can fail. -/
def origScores (suppliers : List String) (criteria : List (String × List ℚ))
    (weights : String → ℚ) : List (String × ℚ) :=
  (List.range suppliers.length).filterMap (fun i =>
    let contrib := criteria.filter (fun p => i < p.2.length)
    if contrib.length = 0 then none
    else some (suppliers.getD i "",
      ((contrib.map (fun p => p.2.getD i 0 * weights p.1)).sum) / (contrib.length : ℚ)))

/-- The JavaScript `sort((a, b) => b.score - a.score)`: a stable descending
sort on the score component. -/
def sortScores (l : List (String × ℚ)) : List (String × ℚ) :=
  l.mergeSort (fun a b => decide (b.2 ≤ a.2))

/-- `calculateOriginalRankings`, second half: rank = 1 + index in the
sorted order, assigned into an object keyed by supplier name (duplicates:
the later, i.e. lower-ranked, occurrence wins); `originalRanks[s] || 0`
reads 0 for a supplier that never received a rank. -/
def ranksOf (sorted : List (String × ℚ)) : String → Nat :=
  sorted.enum.foldl (fun f p => fun s => if s = p.2.1 then p.1 + 1 else f s)
    (fun _ => 0)

/-- The nested map `supplierCriteriaScores`: for each criterion (outer
loop over `selectedVariables`) and each row index `i` (inner loop), the
assignment `supplierCriteriaScores[suppliers[i]][criterion] = score i`;
an entry never assigned reads as the default 0. -/
def buildCriteriaScores {α : Type} (suppliers : List String) (vars : List String)
    (criteria : List (String × List ℚ)) (scoreFun : List ℚ → Nat → α) (z : α) :
    String → String → α :=
  vars.foldl (fun m c =>
    let values := jsLookup criteria c []
    (List.range suppliers.length).foldl
      (fun m' i => fun s k =>
        if s = suppliers.getD i "" ∧ k = c then scoreFun values i else m' s k)
      m)
    (fun _ _ => z)

/-- The structural validation shared by both `perform` functions (the
source duplicates this prefix verbatim in each): the empty-selection
guard, the evaluation-column lookup and the criteria extraction. It
involves no weights. -/
def rankingValidation (d : ExcelData) (evaluationColumn : String)
    (selectedVariables : List String) :
    Except String (Nat × List (String × List ℚ)) :=
  if evaluationColumn = "" ∨ selectedVariables = [] then
    Except.error "Please select the supplier column and at least one criterion."
  else
    let evalIdx := d.headers.indexOf evaluationColumn
    if evalIdx = d.headers.length then
      Except.error ("Evaluation column '" ++ evaluationColumn ++ "' not found.")
    else
      match extractCriteria d selectedVariables with
      | Except.error e => Except.error e
      | Except.ok criteria => Except.ok (evalIdx, criteria)

/-- `Math.min(...values)` on a non-empty rational list (the empty case is
unreachable behind the extraction validation and is given the value 0). -/
def listMinQ (l : List ℚ) : ℚ :=
  match l with
  | [] => 0
  | x :: xs => xs.foldl min x

/-- `Math.max(...values)` on a non-empty rational list. -/
def listMaxQ (l : List ℚ) : ℚ :=
  match l with
  | [] => 0
  | x :: xs => xs.foldl max x

/-- The min-max normalization of the Euclidean variant: a constant column
(`max === min`) maps every entry to 0.5, otherwise each value maps to
`(val - min) / (max - min)`. -/
def euclideanNormalized (values : List ℚ) : List ℚ :=
  let mn := listMinQ values
  let mx := listMaxQ values
  if mx = mn then values.map (fun _ => 1/2)
  else values.map (fun v => (v - mn) / (mx - mn))

/-- The per-criterion Euclidean score of row `i`:
`1 - |normalized[i] - 1|` (ideal point 1, maximal distance 1).  An
out-of-range index — a row beyond the filtered column, `undefined` and
hence `NaN` in JavaScript — is modelled by the default 0. -/
def euclideanScore (values : List ℚ) (i : Nat) : ℚ :=
  1 - |(euclideanNormalized values).getD i 0 - 1|

/-- A ranked row of the Euclidean variant. -/
structure EuclideanRow where
  supplier : String
  score : ℚ
  distance : ℚ
  criteriaScores : String → ℚ
  originalRank : Nat
  rankChange : Int

/-- `performEuclideanDistance`: validation, supplier extraction, the
per-criterion score map, weighted overall score and weighted distance per
row, the stable descending sort on score, and rank bookkeeping
(`rankChange = originalRank - newRank`). -/
def performEuclideanDistance (d : ExcelData) (evaluationColumn : String)
    (selectedVariables : List String) (weights : String → ℚ) :
    Except String (List EuclideanRow) :=
  match rankingValidation d evaluationColumn selectedVariables with
  | Except.error e => Except.error e
  | Except.ok (evalIdx, criteria) =>
    let suppliers := getSuppliers d evalIdx
    let originalRanks := ranksOf (sortScores (origScores suppliers criteria weights))
    let scoresMap := buildCriteriaScores suppliers selectedVariables criteria
      euclideanScore (0 : ℚ)
    let rows := suppliers.map (fun s =>
      { supplier := s
        score := (selectedVariables.map (fun c => scoresMap s c * weights c)).sum
        distance := (selectedVariables.map (fun c => (1 - scoresMap s c) * weights c)).sum
        criteriaScores := scoresMap s
        originalRank := 0
        rankChange := 0 : EuclideanRow })
    let sorted := rows.mergeSort (fun a b => decide (b.score ≤ a.score))
    Except.ok (sorted.enum.map (fun p =>
      { p.2 with
        originalRank := originalRanks p.2.supplier
        rankChange := (originalRanks p.2.supplier : Int) - ((p.1 : Int) + 1) }))

/-- `Math.max(...normalizedValues)` over the reals. -/
noncomputable def listMaxR (l : List ℝ) : ℝ :=
  match l with
  | [] => 0
  | x :: xs => xs.foldl max x

/-- `Math.min(...normalizedValues)` over the reals. -/
noncomputable def listMinR (l : List ℝ) : ℝ :=
  match l with
  | [] => 0
  | x :: xs => xs.foldl min x

/-- The TOPSIS vector normalization: division by
`Math.sqrt(values.reduce((sum, val) => sum + val * val, 0))`, with an
all-zero output when that norm is 0. -/
noncomputable def topsisNormalized (values : List ℚ) : List ℝ :=
  let sumOfSquares := Real.sqrt ((values.map (fun v => (v : ℝ) * (v : ℝ))).sum)
  if sumOfSquares = 0 then values.map (fun _ => (0 : ℝ))
  else values.map (fun v => (v : ℝ) / sumOfSquares)

/-- The per-criterion TOPSIS score of row `i`:
`distanceToAntiIdeal / (distanceToIdeal + distanceToAntiIdeal || 1)` —
the JavaScript `|| 1` replaces a zero denominator by 1.  As in
`euclideanScore`, an out-of-range index is modelled by the default 0. -/
noncomputable def topsisScore (values : List ℚ) (i : Nat) : ℝ :=
  let normalized := topsisNormalized values
  let idealValue := listMaxR normalized
  let antiIdealValue := listMinR normalized
  let nv := normalized.getD i 0
  let dI := |nv - idealValue|
  let dA := |nv - antiIdealValue|
  dA / (if dI + dA = 0 then 1 else dI + dA)

/-- A ranked row of the TOPSIS variant (it reports no distance field). -/
structure TopsisRow where
  supplier : String
  score : ℝ
  criteriaScores : String → ℝ
  originalRank : Nat
  rankChange : Int

/-- `performTOPSIS`: identical shell to `performEuclideanDistance` with
the TOPSIS per-criterion scores. -/
noncomputable def performTOPSIS (d : ExcelData) (evaluationColumn : String)
    (selectedVariables : List String) (weights : String → ℚ) :
    Except String (List TopsisRow) :=
  match rankingValidation d evaluationColumn selectedVariables with
  | Except.error e => Except.error e
  | Except.ok (evalIdx, criteria) =>
    let suppliers := getSuppliers d evalIdx
    let originalRanks := ranksOf (sortScores (origScores suppliers criteria weights))
    let scoresMap := buildCriteriaScores suppliers selectedVariables criteria
      topsisScore (0 : ℝ)
    let rows := suppliers.map (fun s =>
      { supplier := s
        score := (selectedVariables.map (fun c => scoresMap s c * (weights c : ℝ))).sum
        criteriaScores := scoresMap s
        originalRank := 0
        rankChange := 0 : TopsisRow })
    let sorted := rows.mergeSort (fun a b => decide (b.score ≤ a.score))
    Except.ok (sorted.enum.map (fun p =>
      { p.2 with
        originalRank := originalRanks p.2.supplier
        rankChange := (originalRanks p.2.supplier : Int) - ((p.1 : Int) + 1) }))

/-- A result of `handleRun`, tagged by the method that produced it. -/
inductive RankResult where
  | topsis (rows : List TopsisRow)
  | euclidean (rows : List EuclideanRow)

/-- `handleRun` of AlternativeMethods.tsx as a state transition.  It first
invokes `distributeRemainingWeight` — but that only schedules a React
state update, which takes effect after the handler returns — and then
runs the selected method with the weight object built from the CURRENT
`criteriaWeights`.  The returned pair is (the analysis outcome, the
criteria weights stored for subsequent runs). -/
noncomputable def handleRun (d : ExcelData) (method : AnalysisMethod)
    (evaluationColumn : String) (selectedVariables : List String)
    (cw : List (String × ℚ)) :
    Except String RankResult × List (String × ℚ) :=
  (match method with
   | AnalysisMethod.topsis =>
     (performTOPSIS d evaluationColumn selectedVariables
       (getNormalizedWeights cw)).map RankResult.topsis
   | AnalysisMethod.euclidean =>
     (performEuclideanDistance d evaluationColumn selectedVariables
       (getNormalizedWeights cw)).map RankResult.euclidean,
   distributeRemainingWeight cw)

/-- The index of the last row whose identifier equals `s`, among the
first `n` rows. -/
def lastMatchAux (suppliers : List String) (s : String) : Nat → Option Nat
  | 0 => none
  | n + 1 => if suppliers.getD n "" = s then some n else lastMatchAux suppliers s n

theorem lastMatchAux_spec (suppliers : List String) (s : String) :
    ∀ n j, lastMatchAux suppliers s n = some j →
      j < n ∧ suppliers.getD j "" = s := by
  intro n
  induction n with
  | zero => intro j h; simp [lastMatchAux] at h
  | succ n ih =>
    intro j h
    by_cases hn : suppliers.getD n "" = s
    · rw [lastMatchAux, if_pos hn] at h
      obtain rfl : n = j := by simpa using h
      exact ⟨Nat.lt_succ_self n, hn⟩
    · rw [lastMatchAux, if_neg hn] at h
      obtain ⟨hj, hs⟩ := ih j h
      exact ⟨Nat.lt_succ_of_lt hj, hs⟩

/-- Evaluation of the inner `supplierCriteriaScores` loop (over row
indices, for a fixed criterion `c`): the stored value at key
`(s, c)` is the score of the LAST row index whose identifier is `s`;
other keys are untouched. -/
theorem innerFold_eval {α : Type} (suppliers : List String) (c : String)
    (scoreAt : Nat → α) :
    ∀ (n : Nat) (m : String → String → α) (s k : String),
      ((List.range n).foldl
        (fun m' i => fun s' k' =>
          if s' = suppliers.getD i "" ∧ k' = c then scoreAt i else m' s' k') m) s k
      = if k = c then
          (match lastMatchAux suppliers s n with
           | some j => scoreAt j
           | none => m s k)
        else m s k := by
  intro n
  induction n with
  | zero =>
    intro m s k
    simp [lastMatchAux]
  | succ n ih =>
    intro m s k
    rw [List.range_succ, List.foldl_append]
    simp only [List.foldl_cons, List.foldl_nil]
    by_cases hsk : s = suppliers.getD n "" ∧ k = c
    · rw [if_pos hsk]
      rw [if_pos hsk.2, lastMatchAux, if_pos hsk.1.symm]
    · rw [if_neg hsk]
      rw [ih m s k]
      by_cases hk : k = c
      · rw [if_pos hk, if_pos hk]
        have hs : ¬(suppliers.getD n "" = s) := by
          intro hcontra
          exact hsk ⟨hcontra.symm, hk⟩
        rw [lastMatchAux, if_neg hs]
      · rw [if_neg hk, if_neg hk]

/-- Evaluation of `buildCriteriaScores` at a selected criterion: the value
at `(s, k)` is the per-criterion score of the last row whose identifier
is `s` (and the default when no row carries `s`). -/
theorem buildCriteriaScores_eval {α : Type} (suppliers : List String)
    (criteria : List (String × List ℚ)) (scoreFun : List ℚ → Nat → α) (z : α) :
    ∀ (vars : List String) (m : String → String → α) (s k : String),
      (vars.foldl (fun m0 c =>
        (List.range suppliers.length).foldl
          (fun m' i => fun s' k' =>
            if s' = suppliers.getD i "" ∧ k' = c
            then scoreFun (jsLookup criteria c []) i else m' s' k') m0) m) s k
      = if k ∈ vars then
          (match lastMatchAux suppliers s suppliers.length with
           | some j => scoreFun (jsLookup criteria k []) j
           | none => m s k)
        else m s k := by
  intro vars
  induction vars with
  | nil => intro m s k; simp
  | cons c rest ih =>
    intro m s k
    rw [List.foldl_cons, ih]
    by_cases hk : k ∈ rest
    · rw [if_pos hk, if_pos (List.mem_cons_of_mem c hk)]
      cases hlm : lastMatchAux suppliers s suppliers.length with
      | some j => rfl
      | none =>
        simp only
        rw [innerFold_eval suppliers c _ suppliers.length m s k, hlm]
        by_cases hkc : k = c
        · rw [if_pos hkc]
        · rw [if_neg hkc]
    · rw [if_neg hk]
      rw [innerFold_eval suppliers c _ suppliers.length m s k]
      by_cases hkc : k = c
      · rw [if_pos hkc, if_pos (by rw [hkc]; exact List.mem_cons_self c rest)]
        cases hlm : lastMatchAux suppliers s suppliers.length with
        | some j => rw [hkc]
        | none => rfl
      · rw [if_neg hkc, if_neg (by simp [hkc, hk])]

/-- Unfolding `buildCriteriaScores` to the shape of
`buildCriteriaScores_eval`. -/
theorem buildCriteriaScores_apply {α : Type} (suppliers vars : List String)
    (criteria : List (String × List ℚ)) (scoreFun : List ℚ → Nat → α) (z : α)
    (s k : String) (hk : k ∈ vars) :
    buildCriteriaScores suppliers vars criteria scoreFun z s k
      = (match lastMatchAux suppliers s suppliers.length with
         | some j => scoreFun (jsLookup criteria k []) j
         | none => z) := by
  unfold buildCriteriaScores
  rw [buildCriteriaScores_eval suppliers criteria scoreFun z vars _ s k, if_pos hk]

theorem performEuclideanDistance_isOk (d : ExcelData) (evaluationColumn : String)
    (selectedVariables : List String) (w : String → ℚ) :
    (performEuclideanDistance d evaluationColumn selectedVariables w).isOk
      = (rankingValidation d evaluationColumn selectedVariables).isOk := by
  unfold performEuclideanDistance
  cases rankingValidation d evaluationColumn selectedVariables with
  | error e => rfl
  | ok p => obtain ⟨i, c⟩ := p; rfl

theorem performTOPSIS_isOk (d : ExcelData) (evaluationColumn : String)
    (selectedVariables : List String) (w : String → ℚ) :
    (performTOPSIS d evaluationColumn selectedVariables w).isOk
      = (rankingValidation d evaluationColumn selectedVariables).isOk := by
  unfold performTOPSIS
  cases rankingValidation d evaluationColumn selectedVariables with
  | error e => rfl
  | ok p => obtain ⟨i, c⟩ := p; rfl

theorem except_map_isOk {α β γ : Type} (e : Except α β) (f : β → γ) :
    (e.map f).isOk = e.isOk := by
  cases e with
  | error a => rfl
  | ok b => rfl

theorem handleRun_fst_isOk (d : ExcelData) (method : AnalysisMethod)
    (evaluationColumn : String) (selectedVariables : List String)
    (cw : List (String × ℚ)) :
    (handleRun d method evaluationColumn selectedVariables cw).1.isOk
      = (rankingValidation d evaluationColumn selectedVariables).isOk := by
  cases method with
  | topsis =>
    show ((performTOPSIS d evaluationColumn selectedVariables
      (getNormalizedWeights cw)).map RankResult.topsis).isOk = _
    rw [except_map_isOk, performTOPSIS_isOk]
  | euclidean =>
    show ((performEuclideanDistance d evaluationColumn selectedVariables
      (getNormalizedWeights cw)).map RankResult.euclidean).isOk = _
    rw [except_map_isOk, performEuclideanDistance_isOk]

theorem mem_of_mem_enum {α : Type} {p : ℕ × α} {l : List α}
    (hp : p ∈ l.enum) : p.2 ∈ l := by
  have hmap := List.enum_map_snd l
  rw [← hmap]
  exact List.mem_map_of_mem Prod.snd hp

theorem performEuclideanDistance_ok_rows (d : ExcelData) (evaluationColumn : String)
    (selectedVariables : List String) (w : String → ℚ) (evalIdx : Nat)
    (criteria : List (String × List ℚ))
    (hval : rankingValidation d evaluationColumn selectedVariables
      = Except.ok (evalIdx, criteria)) :
    ∃ rows, performEuclideanDistance d evaluationColumn selectedVariables w
        = Except.ok rows ∧
      rows.length = d.data.length ∧
      ∀ r ∈ rows,
        r.criteriaScores = buildCriteriaScores (getSuppliers d evalIdx)
          selectedVariables criteria euclideanScore (0 : ℚ) r.supplier ∧
        r.supplier ∈ getSuppliers d evalIdx ∧
        r.score = (selectedVariables.map (fun c =>
          buildCriteriaScores (getSuppliers d evalIdx) selectedVariables criteria
            euclideanScore (0 : ℚ) r.supplier c * w c)).sum := by
  unfold performEuclideanDistance
  rw [hval]
  refine ⟨_, rfl, ?_, ?_⟩
  · rw [List.length_map, List.enum_length]
    rw [(List.mergeSort_perm _ _).length_eq]
    simp [getSuppliers]
  · intro r hr
    rcases List.mem_map.mp hr with ⟨p, hp, rfl⟩
    have hsnd := mem_of_mem_enum hp
    have hmem : p.2 ∈ (getSuppliers d evalIdx).map (fun s =>
        { supplier := s
          score := (selectedVariables.map (fun c =>
            buildCriteriaScores (getSuppliers d evalIdx) selectedVariables criteria
              euclideanScore (0 : ℚ) s c * w c)).sum
          distance := (selectedVariables.map (fun c =>
            (1 - buildCriteriaScores (getSuppliers d evalIdx) selectedVariables criteria
              euclideanScore (0 : ℚ) s c) * w c)).sum
          criteriaScores := buildCriteriaScores (getSuppliers d evalIdx)
            selectedVariables criteria euclideanScore (0 : ℚ) s
          originalRank := 0
          rankChange := 0 : EuclideanRow }) :=
      ((List.mergeSort_perm _ _).mem_iff).mp hsnd
    rcases List.mem_map.mp hmem with ⟨s, hs, hps⟩
    refine ⟨?_, ?_, ?_⟩
    · show p.2.criteriaScores = _
      rw [← hps]
    · show p.2.supplier ∈ _
      rw [← hps]
      exact hs
    · show p.2.score = _
      rw [← hps]

theorem performTOPSIS_ok_rows (d : ExcelData) (evaluationColumn : String)
    (selectedVariables : List String) (w : String → ℚ) (evalIdx : Nat)
    (criteria : List (String × List ℚ))
    (hval : rankingValidation d evaluationColumn selectedVariables
      = Except.ok (evalIdx, criteria)) :
    ∃ rows, performTOPSIS d evaluationColumn selectedVariables w
        = Except.ok rows ∧
      rows.length = d.data.length ∧
      ∀ r ∈ rows,
        r.criteriaScores = buildCriteriaScores (getSuppliers d evalIdx)
          selectedVariables criteria topsisScore (0 : ℝ) r.supplier ∧
        r.supplier ∈ getSuppliers d evalIdx ∧
        r.score = (selectedVariables.map (fun c =>
          buildCriteriaScores (getSuppliers d evalIdx) selectedVariables criteria
            topsisScore (0 : ℝ) r.supplier c * ((w c : ℚ) : ℝ))).sum := by
  unfold performTOPSIS
  rw [hval]
  refine ⟨_, rfl, ?_, ?_⟩
  · rw [List.length_map, List.enum_length]
    rw [(List.mergeSort_perm _ _).length_eq]
    simp [getSuppliers]
  · intro r hr
    rcases List.mem_map.mp hr with ⟨p, hp, rfl⟩
    have hsnd := mem_of_mem_enum hp
    have hmem : p.2 ∈ (getSuppliers d evalIdx).map (fun s =>
        { supplier := s
          score := (selectedVariables.map (fun c =>
            buildCriteriaScores (getSuppliers d evalIdx) selectedVariables criteria
              topsisScore (0 : ℝ) s c * ((w c : ℚ) : ℝ))).sum
          criteriaScores := buildCriteriaScores (getSuppliers d evalIdx)
            selectedVariables criteria topsisScore (0 : ℝ) s
          originalRank := 0
          rankChange := 0 : TopsisRow }) :=
      ((List.mergeSort_perm _ _).mem_iff).mp hsnd
    rcases List.mem_map.mp hmem with ⟨s, hs, hps⟩
    refine ⟨?_, ?_, ?_⟩
    · show p.2.criteriaScores = _
      rw [← hps]
    · show p.2.supplier ∈ _
      rw [← hps]
      exact hs
    · show p.2.score = _
      rw [← hps]

end Rank

/-- Claim C2 (amended): the engine performs no weight-sum check at ranking
time.  Whether a run proceeds is exactly the structural validation —
identifier column present, at least one criterion, every criterion column
present with a non-empty numeric extraction — which involves no weights
at all: the outcome is identical for every weight list, including weight
lists whose sum is arbitrarily far from 1, and the run itself computes
with the caller's weights as given.  `handleRun` does invoke the explicit
redistribution operation, but the resulting normalized weights are only
stored for subsequent runs (a scheduled React state update); they are not
the weights the current ranking uses. -/
theorem C2_no_sum_enforcement_amended (d : ExcelData)
    (method : Rank.AnalysisMethod) (evaluationColumn : String)
    (selectedVariables : List String) (cw cw' : List (String × ℚ)) :
    ((Rank.handleRun d method evaluationColumn selectedVariables cw).1.isOk
      = (Rank.rankingValidation d evaluationColumn selectedVariables).isOk) ∧
    ((Rank.handleRun d method evaluationColumn selectedVariables cw).1.isOk
      = (Rank.handleRun d method evaluationColumn selectedVariables cw').1.isOk) ∧
    ((Rank.handleRun d method evaluationColumn selectedVariables cw).2
      = Rank.distributeRemainingWeight cw) :=
  ⟨Rank.handleRun_fst_isOk d method evaluationColumn selectedVariables cw,
   by
    rw [Rank.handleRun_fst_isOk d method evaluationColumn selectedVariables cw,
      Rank.handleRun_fst_isOk d method evaluationColumn selectedVariables cw'],
   rfl⟩

/-- Counterexample to claim C2 as stated: with criteria weights
`{A: 0.3, B: 0.3}` — sum 0.6, off from 1 by far more than the claimed
1e-3 tolerance — the Euclidean ranking run still proceeds and produces a
result instead of refusing. -/
theorem C2_counterexample :
    ((([("A", 3/10), ("B", 3/10)] : List (String × ℚ)).map Prod.snd).sum = 3/5) ∧
    (1/1000 < |(3/5 : ℚ) - 1|) ∧
    ((Rank.handleRun
        ⟨["S", "A", "B"],
         [[Cell.text "x", Cell.num 1, Cell.num 2],
          [Cell.text "y", Cell.num 3, Cell.num 4]]⟩
        Rank.AnalysisMethod.euclidean "S" ["A", "B"]
        [("A", 3/10), ("B", 3/10)]).1.isOk = true) := by
  refine ⟨by norm_num, ?_, ?_⟩
  · rw [abs_of_nonpos (by norm_num)]
    norm_num
  · rw [Rank.handleRun_fst_isOk]
    rfl

theorem foldl_min_le {α : Type} [LinearOrder α] :
    ∀ (l : List α) (a : α), l.foldl min a ≤ a ∧ ∀ v ∈ l, l.foldl min a ≤ v := by
  intro l
  induction l with
  | nil => intro a; exact ⟨le_refl a, by simp⟩
  | cons x xs ih =>
    intro a
    refine ⟨le_trans (ih (min a x)).1 (min_le_left a x), ?_⟩
    intro v hv
    rcases List.mem_cons.mp hv with rfl | hv'
    · exact le_trans (ih (min a v)).1 (min_le_right a v)
    · exact (ih (min a x)).2 v hv'

theorem le_foldl_max {α : Type} [LinearOrder α] :
    ∀ (l : List α) (a : α), a ≤ l.foldl max a ∧ ∀ v ∈ l, v ≤ l.foldl max a := by
  intro l
  induction l with
  | nil => intro a; exact ⟨le_refl a, by simp⟩
  | cons x xs ih =>
    intro a
    refine ⟨le_trans (le_max_left a x) (ih (max a x)).1, ?_⟩
    intro v hv
    rcases List.mem_cons.mp hv with rfl | hv'
    · exact le_trans (le_max_right a v) (ih (max a v)).1
    · exact (ih (max a x)).2 v hv'

theorem foldl_min_const {α : Type} [LinearOrder α] :
    ∀ (l : List α) (a : α), (∀ v ∈ l, v = a) → l.foldl min a = a := by
  intro l
  induction l with
  | nil => intro a _; rfl
  | cons x xs ih =>
    intro a h
    have hx : x = a := h x (List.mem_cons_self x xs)
    rw [List.foldl_cons, hx, min_self]
    exact ih a (fun v hv => h v (List.mem_cons_of_mem x hv))

theorem foldl_max_const {α : Type} [LinearOrder α] :
    ∀ (l : List α) (a : α), (∀ v ∈ l, v = a) → l.foldl max a = a := by
  intro l
  induction l with
  | nil => intro a _; rfl
  | cons x xs ih =>
    intro a h
    have hx : x = a := h x (List.mem_cons_self x xs)
    rw [List.foldl_cons, hx, max_self]
    exact ih a (fun v hv => h v (List.mem_cons_of_mem x hv))

namespace Rank

theorem listMinQ_le (l : List ℚ) : ∀ v ∈ l, listMinQ l ≤ v := by
  cases l with
  | nil => simp
  | cons x xs =>
    intro v hv
    rcases List.mem_cons.mp hv with rfl | hv'
    · exact (foldl_min_le xs v).1
    · exact (foldl_min_le xs x).2 v hv'

theorem le_listMaxQ (l : List ℚ) : ∀ v ∈ l, v ≤ listMaxQ l := by
  cases l with
  | nil => simp
  | cons x xs =>
    intro v hv
    rcases List.mem_cons.mp hv with rfl | hv'
    · exact (le_foldl_max xs v).1
    · exact (le_foldl_max xs x).2 v hv'

theorem listMinR_le (l : List ℝ) : ∀ v ∈ l, listMinR l ≤ v := by
  cases l with
  | nil => simp
  | cons x xs =>
    intro v hv
    rcases List.mem_cons.mp hv with rfl | hv'
    · exact (foldl_min_le xs v).1
    · exact (foldl_min_le xs x).2 v hv'

theorem le_listMaxR (l : List ℝ) : ∀ v ∈ l, v ≤ listMaxR l := by
  cases l with
  | nil => simp
  | cons x xs =>
    intro v hv
    rcases List.mem_cons.mp hv with rfl | hv'
    · exact (le_foldl_max xs v).1
    · exact (le_foldl_max xs x).2 v hv'

theorem listMinQ_const (l : List ℚ) (c : ℚ) (hne : l ≠ [])
    (h : ∀ v ∈ l, v = c) : listMinQ l = c := by
  cases l with
  | nil => exact absurd rfl hne
  | cons x xs =>
    have hx : x = c := h x (List.mem_cons_self x xs)
    unfold listMinQ
    rw [hx]
    exact foldl_min_const xs c (fun v hv => h v (List.mem_cons_of_mem x hv))

theorem listMaxQ_const (l : List ℚ) (c : ℚ) (hne : l ≠ [])
    (h : ∀ v ∈ l, v = c) : listMaxQ l = c := by
  cases l with
  | nil => exact absurd rfl hne
  | cons x xs =>
    have hx : x = c := h x (List.mem_cons_self x xs)
    unfold listMaxQ
    rw [hx]
    exact foldl_max_const xs c (fun v hv => h v (List.mem_cons_of_mem x hv))

theorem euclideanNormalized_length (values : List ℚ) :
    (euclideanNormalized values).length = values.length := by
  unfold euclideanNormalized
  by_cases h : listMaxQ values = listMinQ values
  · rw [if_pos h, List.length_map]
  · rw [if_neg h, List.length_map]

theorem euclideanNormalized_const (values : List ℚ) (c : ℚ) (hne : values ≠ [])
    (hconst : ∀ v ∈ values, v = c) (i : Nat) (hi : i < values.length) :
    (euclideanNormalized values).getD i 0 = 1/2 := by
  unfold euclideanNormalized
  rw [if_pos (by rw [listMaxQ_const values c hne hconst, listMinQ_const values c hne hconst])]
  have hlen : i < (values.map (fun _ => (1:ℚ)/2)).length := by simpa using hi
  rw [List.getD_eq_getElem _ _ hlen, List.getElem_map]

theorem euclideanNormalized_bounds (values : List ℚ) (i : Nat)
    (hi : i < values.length) :
    0 ≤ (euclideanNormalized values).getD i 0 ∧
    (euclideanNormalized values).getD i 0 ≤ 1 := by
  unfold euclideanNormalized
  by_cases h : listMaxQ values = listMinQ values
  · rw [if_pos h]
    have hlen : i < (values.map (fun _ => (1:ℚ)/2)).length := by simpa using hi
    rw [List.getD_eq_getElem _ _ hlen, List.getElem_map]
    norm_num
  · rw [if_neg h]
    have hlen : i < (values.map (fun v =>
        (v - listMinQ values) / (listMaxQ values - listMinQ values))).length := by
      simpa using hi
    rw [List.getD_eq_getElem _ _ hlen, List.getElem_map]
    have hv : values[i] ∈ values := List.getElem_mem hi
    have h1 : listMinQ values ≤ values[i] := listMinQ_le values _ hv
    have h2 : values[i] ≤ listMaxQ values := le_listMaxQ values _ hv
    have h4 : listMinQ values < listMaxQ values :=
      lt_of_le_of_ne (le_trans h1 h2) (fun hc => h hc.symm)
    constructor
    · exact div_nonneg (by linarith) (by linarith)
    · rw [div_le_one (by linarith)]
      linarith

theorem euclideanScore_const (values : List ℚ) (c : ℚ) (hne : values ≠ [])
    (hconst : ∀ v ∈ values, v = c) (i : Nat) (hi : i < values.length) :
    euclideanScore values i = 1/2 := by
  unfold euclideanScore
  rw [euclideanNormalized_const values c hne hconst i hi]
  rw [abs_of_nonpos (by norm_num)]
  norm_num

theorem euclideanScore_bounds (values : List ℚ) (i : Nat)
    (hi : i < values.length) :
    0 ≤ euclideanScore values i ∧ euclideanScore values i ≤ 1 := by
  obtain ⟨h0, h1⟩ := euclideanNormalized_bounds values i hi
  unfold euclideanScore
  rw [abs_of_nonpos (by linarith)]
  constructor <;> linarith

theorem topsisScore_bounds (values : List ℚ) (i : Nat) :
    0 ≤ topsisScore values i ∧ topsisScore values i ≤ 1 := by
  unfold topsisScore
  simp only
  set nv := (topsisNormalized values).getD i 0
  set dI := |nv - listMaxR (topsisNormalized values)| with hdI
  set dA := |nv - listMinR (topsisNormalized values)| with hdA
  have hI : 0 ≤ dI := abs_nonneg _
  have hA : 0 ≤ dA := abs_nonneg _
  by_cases hsum : dI + dA = 0
  · rw [if_pos hsum]
    have hA0 : dA = 0 := by linarith
    rw [hA0]
    norm_num
  · rw [if_neg hsum]
    have hpos : 0 < dI + dA := lt_of_le_of_ne (by linarith) (fun hc => hsum hc.symm)
    constructor
    · exact div_nonneg hA (le_of_lt hpos)
    · rw [div_le_one hpos]
      linarith

theorem rankingValidation_ok (d : ExcelData) (evaluationColumn : String)
    (selectedVariables : List String) (evalIdx : Nat)
    (criteria : List (String × List ℚ))
    (h : rankingValidation d evaluationColumn selectedVariables
      = Except.ok (evalIdx, criteria)) :
    extractCriteria d selectedVariables = Except.ok criteria ∧
    evalIdx = d.headers.indexOf evaluationColumn := by
  unfold rankingValidation at h
  by_cases h1 : evaluationColumn = "" ∨ selectedVariables = []
  · rw [if_pos h1] at h
    exact absurd h (by simp)
  · rw [if_neg h1] at h
    by_cases h2 : d.headers.indexOf evaluationColumn = d.headers.length
    · rw [if_pos h2] at h
      exact absurd h (by simp)
    · rw [if_neg h2] at h
      cases hx : extractCriteria d selectedVariables with
      | error e => rw [hx] at h; exact absurd h (by simp)
      | ok m =>
        rw [hx] at h
        have hpair : (d.headers.indexOf evaluationColumn, m) = (evalIdx, criteria) := by
          simpa using h
        obtain ⟨he, hm⟩ := Prod.mk.injEq _ _ _ _ ▸ hpair
        exact ⟨by rw [hm], he.symm⟩

theorem extractCriteria_keys (d : ExcelData) :
    ∀ (vars : List String) (criteria : List (String × List ℚ)),
      extractCriteria d vars = Except.ok criteria →
      criteria.map Prod.fst = vars := by
  intro vars
  induction vars with
  | nil =>
    intro criteria h
    simp only [extractCriteria] at h
    obtain rfl : ([] : List (String × List ℚ)) = criteria := by simpa using h
    rfl
  | cons c rest ih =>
    intro criteria h
    simp only [extractCriteria] at h
    by_cases h1 : d.headers.indexOf c = d.headers.length
    · rw [if_pos h1] at h
      exact absurd h (by simp)
    · rw [if_neg h1] at h
      by_cases h2 : Corr.extractColumnOrZero d (d.headers.indexOf c) = []
      · rw [if_pos h2] at h
        exact absurd h (by simp)
      · rw [if_neg h2] at h
        cases hrest : extractCriteria d rest with
        | error e => rw [hrest] at h; exact absurd h (by simp)
        | ok m =>
          rw [hrest] at h
          obtain rfl : (c, Corr.extractColumnOrZero d (d.headers.indexOf c)) :: m
              = criteria := by simpa using h
          simp [ih m hrest]

theorem jsLookup_mem {α : Type} (m : List (String × α)) (c : String) (dflt : α)
    (hc : c ∈ m.map Prod.fst) :
    ∃ p ∈ m, p.1 = c ∧ jsLookup m c dflt = p.2 := by
  unfold jsLookup
  cases hfind : m.reverse.find? (fun p => p.1 = c) with
  | none =>
    exfalso
    rcases List.mem_map.mp hc with ⟨p, hp, hpc⟩
    have := List.find?_eq_none.mp hfind p (List.mem_reverse.mpr hp)
    simp [hpc] at this
  | some p =>
    have hp : p ∈ m := List.mem_reverse.mp (List.mem_of_find?_eq_some hfind)
    have hpc : p.1 = c := by
      have := List.find?_some hfind
      simpa using this
    exact ⟨p, hp, hpc, by simp⟩

end Rank

namespace Corr

/-- The mean used by `calculatePearsonCorrelation`: NOTE the source sums
the WHOLE list (`x.reduce(...)`) but divides by `n = min(x.length,
y.length)`. -/
noncomputable def pearsonMean (x : List ℝ) (n : Nat) : ℝ := x.sum / (n : ℝ)

/-- `xSumSquaredDiff` of the correlation loop (`xDiff * xDiff` summed over
`i = 0 .. n-1`). -/
noncomputable def pearsonSS (x : List ℝ) (n : Nat) : ℝ :=
  ∑ i ∈ Finset.range n, (x.getD i 0 - pearsonMean x n) * (x.getD i 0 - pearsonMean x n)

/-- The `numerator` of the correlation loop (`xDiff * yDiff` summed). -/
noncomputable def pearsonNum (x y : List ℝ) (n : Nat) : ℝ :=
  ∑ i ∈ Finset.range n,
    (x.getD i 0 - pearsonMean x n) * (y.getD i 0 - pearsonMean y n)

/-- `calculatePearsonCorrelation` from CorrelationAnalysis.tsx: 0 for an
empty overlap, 0 when either sum of squared differences vanishes
(the explicit division-by-zero guard), otherwise
`numerator / Math.sqrt(xSumSquaredDiff * ySumSquaredDiff)`. -/
noncomputable def calculatePearsonCorrelation (x y : List ℝ) : ℝ :=
  let n := min x.length y.length
  if n = 0 then 0
  else if pearsonSS x n = 0 ∨ pearsonSS y n = 0 then 0
  else pearsonNum x y n / Real.sqrt (pearsonSS x n * pearsonSS y n)

theorem pearsonNum_comm (x y : List ℝ) (n : Nat) :
    pearsonNum x y n = pearsonNum y x n := by
  unfold pearsonNum
  exact Finset.sum_congr rfl (fun i _ => mul_comm _ _)

theorem calculatePearsonCorrelation_comm (x y : List ℝ) :
    calculatePearsonCorrelation x y = calculatePearsonCorrelation y x := by
  unfold calculatePearsonCorrelation
  simp only
  rw [min_comm y.length x.length]
  by_cases h0 : min x.length y.length = 0
  · rw [if_pos h0, if_pos h0]
  · rw [if_neg h0, if_neg h0]
    by_cases hss : pearsonSS x (min x.length y.length) = 0 ∨
        pearsonSS y (min x.length y.length) = 0
    · rw [if_pos hss, if_pos (Or.symm hss)]
    · rw [if_neg hss, if_neg (fun hc => hss (Or.symm hc))]
      rw [pearsonNum_comm, mul_comm]

/-- A constant series (among the first `n = min` entries, which is all of
`x` when `x` is the shorter list) has `xSumSquaredDiff = 0`, so the guard
makes the coefficient 0. -/
theorem calculatePearsonCorrelation_const (x y : List ℝ) (c : ℝ)
    (hlen : x.length ≤ y.length) (hconst : ∀ v ∈ x, v = c) :
    calculatePearsonCorrelation x y = 0 := by
  unfold calculatePearsonCorrelation
  simp only
  by_cases h0 : min x.length y.length = 0
  · rw [if_pos h0]
  · rw [if_neg h0]
    have hn : min x.length y.length = x.length := min_eq_left hlen
    have hrep : x = List.replicate x.length c := List.eq_replicate_of_mem hconst
    have hxpos : 0 < x.length := by
      rcases Nat.eq_zero_or_pos x.length with hz | hp
      · exact absurd (by rw [hn, hz]) h0
      · exact hp
    have hsum : x.sum = (x.length : ℝ) * c := by
      rw [hrep]
      simp [List.sum_replicate, nsmul_eq_mul]
    have hmean : pearsonMean x (min x.length y.length) = c := by
      unfold pearsonMean
      rw [hn, hsum]
      field_simp
    have hss : pearsonSS x (min x.length y.length) = 0 := by
      unfold pearsonSS
      apply Finset.sum_eq_zero
      intro i hi
      have hilt : i < x.length := by
        have := Finset.mem_range.mp hi
        omega
      have hxi : x.getD i 0 = c := by
        rw [List.getD_eq_getElem _ _ hilt]
        exact hconst _ (List.getElem_mem hilt)
      rw [hxi, hmean]
      ring
    rw [if_pos (Or.inl hss)]

/-- One cell of the correlation matrix. -/
structure CorrelationResult where
  coefficient : ℝ
  pValue : ℝ
  isSignificant : Bool

/-- `calculatePearsonCorrelation`'s companion `calculatePValue`: the
coarse two-tailed banding of the t-statistic
`t = r * sqrt(n - 2) / sqrt(1 - r^2)`, with p = 1 when the degrees of
freedom fall below 1. -/
noncomputable def calculatePValue (r : ℝ) (n : Nat) : ℝ :=
  if ((n : Int) - 2) < 1 then 1
  else
    let t := r * Real.sqrt (((n : Int) - 2 : Int) : ℝ) / Real.sqrt (1 - r * r)
    if |t| < 1 then 0.5
    else if |t| < 2 then 0.2
    else if |t| < 2.5 then 0.05
    else if |t| < 3 then 0.01
    else if |t| < 4 then 0.001
    else 0.0001

/-- The fixed significance level of the component. -/
noncomputable def significanceLevel : ℝ := 0.05

/-- One entry of the matrix loop in `handleRun`: the diagonal behaviour
(`var1 === var2` compares NAMES) is the fixed `{1, 0, true}` cell, and an
off-diagonal entry carries the Pearson coefficient of the two transformed
series, its banded p-value at `n = min` of the lengths, and the
significance flag `pValue <= significanceLevel`. -/
noncomputable def corrEntry (data : String → List ℝ) (var1 var2 : String) :
    CorrelationResult :=
  if var1 = var2 then ⟨1, 0, true⟩
  else
    let coefficient := calculatePearsonCorrelation (data var1) (data var2)
    let n := min (data var1).length (data var2).length
    let pValue := calculatePValue coefficient n
    ⟨coefficient, pValue, decide (pValue ≤ significanceLevel)⟩

/-- The correlation matrix built by `handleRun` over the (transformed)
series of the selected variables. -/
noncomputable def correlationMatrix (selectedVariables : List String)
    (data : String → List ℝ) : List (List CorrelationResult) :=
  selectedVariables.map (fun var1 =>
    selectedVariables.map (fun var2 => corrEntry data var1 var2))

theorem corrEntry_symm (data : String → List ℝ) (v1 v2 : String) :
    corrEntry data v1 v2 = corrEntry data v2 v1 := by
  unfold corrEntry
  by_cases h : v1 = v2
  · rw [if_pos h, if_pos h.symm]
  · rw [if_neg h, if_neg (fun hc => h hc.symm)]
    simp only
    rw [calculatePearsonCorrelation_comm, min_comm]

theorem correlationMatrix_entry (vars : List String) (data : String → List ℝ)
    (i j : Nat) (hi : i < vars.length) (hj : j < vars.length) :
    ((correlationMatrix vars data).getD i []).getD j ⟨0, 0, false⟩
      = corrEntry data (vars.getD i "") (vars.getD j "") := by
  unfold correlationMatrix
  have hi' : i < (vars.map (fun var1 =>
      vars.map (fun var2 => corrEntry data var1 var2))).length := by simpa using hi
  rw [List.getD_eq_getElem _ _ hi', List.getElem_map]
  have hj' : j < (vars.map (fun var2 =>
      corrEntry data (vars[i]) var2)).length := by simpa using hj
  rw [List.getD_eq_getElem _ _ hj', List.getElem_map]
  rw [List.getD_eq_getElem vars _ hi, List.getD_eq_getElem vars _ hj]

/-- The fixed table of named power transformations: per lambda the exact
function of the source (`<= 0` floors for the negative powers and log,
a `< 0` floor for the square root, and NO floor for identity, square and
cube). -/
noncomputable def powerTransformations : List (ℚ × (ℝ → ℝ)) :=
  [(-2, fun value => if value ≤ 0 then 0 else 1 / (value * value)),
   (-1, fun value => if value ≤ 0 then 0 else 1 / value),
   (-1/2, fun value => if value ≤ 0 then 0 else 1 / Real.sqrt value),
   (0, fun value => if value ≤ 0 then 0 else Real.log value),
   (1/2, fun value => if value < 0 then 0 else Real.sqrt value),
   (1, fun value => value),
   (2, fun value => value * value),
   (3, fun value => value * value * value)]

/-- `applyPowerTransformation`: when the lambda is one of the table's
standard values the tabulated transform is mapped over the values;
otherwise the general Box-Cox formula applies, with a 0 floor for
non-positive inputs and the log branch for `|lambda| < 1e-10`. -/
noncomputable def applyPowerTransformation (values : List ℝ) (lambda : ℚ) : List ℝ :=
  match powerTransformations.find? (fun t => t.1 = lambda) with
  | some transformation => values.map transformation.2
  | none => values.map (fun value =>
      if value ≤ 0 then 0
      else if |lambda| < 1/10000000000 then Real.log value
      else (value ^ ((lambda : ℚ) : ℝ) - 1) / ((lambda : ℚ) : ℝ))

theorem find?_none_of_not_key {α : Type} (l : List (ℚ × α)) (lambda : ℚ)
    (h : lambda ∉ l.map Prod.fst) :
    l.find? (fun t => t.1 = lambda) = none := by
  rw [List.find?_eq_none]
  intro p hp
  simp only [decide_eq_true_eq]
  intro hc
  exact h (hc ▸ List.mem_map_of_mem Prod.fst hp)

theorem findPT_neg2 : powerTransformations.find? (fun t => t.1 = (-2 : ℚ))
    = some ((-2 : ℚ), fun value => if value ≤ 0 then 0 else 1 / (value * value)) := by
  unfold powerTransformations
  rw [List.find?_cons_of_pos _ (by norm_num)]

theorem findPT_neg1 : powerTransformations.find? (fun t => t.1 = (-1 : ℚ))
    = some ((-1 : ℚ), fun value => if value ≤ 0 then 0 else 1 / value) := by
  unfold powerTransformations
  rw [List.find?_cons_of_neg _ (by norm_num), List.find?_cons_of_pos _ (by norm_num)]

theorem findPT_neghalf : powerTransformations.find? (fun t => t.1 = (-1/2 : ℚ))
    = some ((-1/2 : ℚ), fun value => if value ≤ 0 then 0 else 1 / Real.sqrt value) := by
  unfold powerTransformations
  rw [List.find?_cons_of_neg _ (by norm_num), List.find?_cons_of_neg _ (by norm_num),
    List.find?_cons_of_pos _ (by norm_num)]

theorem findPT_zero : powerTransformations.find? (fun t => t.1 = (0 : ℚ))
    = some ((0 : ℚ), fun value => if value ≤ 0 then 0 else Real.log value) := by
  unfold powerTransformations
  rw [List.find?_cons_of_neg _ (by norm_num), List.find?_cons_of_neg _ (by norm_num),
    List.find?_cons_of_neg _ (by norm_num), List.find?_cons_of_pos _ (by norm_num)]

theorem findPT_half : powerTransformations.find? (fun t => t.1 = (1/2 : ℚ))
    = some ((1/2 : ℚ), fun value => if value < 0 then 0 else Real.sqrt value) := by
  unfold powerTransformations
  rw [List.find?_cons_of_neg _ (by norm_num), List.find?_cons_of_neg _ (by norm_num),
    List.find?_cons_of_neg _ (by norm_num), List.find?_cons_of_neg _ (by norm_num),
    List.find?_cons_of_pos _ (by norm_num)]

theorem findPT_one : powerTransformations.find? (fun t => t.1 = (1 : ℚ))
    = some ((1 : ℚ), fun value => value) := by
  unfold powerTransformations
  rw [List.find?_cons_of_neg _ (by norm_num), List.find?_cons_of_neg _ (by norm_num),
    List.find?_cons_of_neg _ (by norm_num), List.find?_cons_of_neg _ (by norm_num),
    List.find?_cons_of_neg _ (by norm_num), List.find?_cons_of_pos _ (by norm_num)]

theorem findPT_two : powerTransformations.find? (fun t => t.1 = (2 : ℚ))
    = some ((2 : ℚ), fun value => value * value) := by
  unfold powerTransformations
  rw [List.find?_cons_of_neg _ (by norm_num), List.find?_cons_of_neg _ (by norm_num),
    List.find?_cons_of_neg _ (by norm_num), List.find?_cons_of_neg _ (by norm_num),
    List.find?_cons_of_neg _ (by norm_num), List.find?_cons_of_neg _ (by norm_num),
    List.find?_cons_of_pos _ (by norm_num)]

theorem findPT_three : powerTransformations.find? (fun t => t.1 = (3 : ℚ))
    = some ((3 : ℚ), fun value => value * value * value) := by
  unfold powerTransformations
  rw [List.find?_cons_of_neg _ (by norm_num), List.find?_cons_of_neg _ (by norm_num),
    List.find?_cons_of_neg _ (by norm_num), List.find?_cons_of_neg _ (by norm_num),
    List.find?_cons_of_neg _ (by norm_num), List.find?_cons_of_neg _ (by norm_num),
    List.find?_cons_of_neg _ (by norm_num), List.find?_cons_of_pos _ (by norm_num)]

end Corr

/-- Claim C3 (amended): the power transform applies the general Box-Cox
formula — 0 for non-positive x, `log x` when `|lambda| < 1e-10`, else
`(x^lambda - 1)/lambda` — only for lambdas OUTSIDE the fixed table
`{-2, -1, -0.5, 0, 0.5, 1, 2, 3}`; for table lambdas the tabulated simple
transform is used instead.  Non-positive x maps to 0 for every lambda
except 1, 2 and 3, where the raw power `x`, `x*x`, `x*x*x` is returned;
for positive x the table's `lambda = 0` entry agrees with the Box-Cox
log branch. -/
theorem C3_power_transform_amended (lambda : ℚ) (x : ℝ) :
    (lambda ∉ Corr.powerTransformations.map Prod.fst →
      Corr.applyPowerTransformation [x] lambda
        = [if x ≤ 0 then 0
           else if |lambda| < 1/10000000000 then Real.log x
           else (x ^ ((lambda : ℚ) : ℝ) - 1) / ((lambda : ℚ) : ℝ)]) ∧
    (x ≤ 0 → lambda ≠ 1 → lambda ≠ 2 → lambda ≠ 3 →
      Corr.applyPowerTransformation [x] lambda = [0]) ∧
    (Corr.applyPowerTransformation [x] 1 = [x] ∧
      Corr.applyPowerTransformation [x] 2 = [x * x] ∧
      Corr.applyPowerTransformation [x] 3 = [x * x * x]) ∧
    (0 < x → Corr.applyPowerTransformation [x] 0 = [Real.log x]) := by
  refine ⟨?_, ?_, ⟨?_, ?_, ?_⟩, ?_⟩
  · intro hmem
    unfold Corr.applyPowerTransformation
    rw [Corr.find?_none_of_not_key _ _ hmem]
    rfl
  · intro hx h1 h2 h3
    by_cases hmem : lambda ∈ Corr.powerTransformations.map Prod.fst
    · have hcases : lambda = -2 ∨ lambda = -1 ∨ lambda = -1/2 ∨ lambda = 0 ∨
          lambda = 1/2 ∨ lambda = 1 ∨ lambda = 2 ∨ lambda = 3 := by
        simpa [Corr.powerTransformations] using hmem
      rcases hcases with rfl | rfl | rfl | rfl | rfl | rfl | rfl | rfl
      · unfold Corr.applyPowerTransformation
        rw [Corr.findPT_neg2]
        simp [if_pos hx]
      · unfold Corr.applyPowerTransformation
        rw [Corr.findPT_neg1]
        simp [if_pos hx]
      · unfold Corr.applyPowerTransformation
        rw [Corr.findPT_neghalf]
        simp [if_pos hx]
      · unfold Corr.applyPowerTransformation
        rw [Corr.findPT_zero]
        simp [if_pos hx]
      · unfold Corr.applyPowerTransformation
        rw [Corr.findPT_half]
        rcases lt_or_eq_of_le hx with hlt | heq
        · simp [if_pos hlt]
        · rw [heq]
          simp [Real.sqrt_zero]
      · exact absurd rfl h1
      · exact absurd rfl h2
      · exact absurd rfl h3
    · unfold Corr.applyPowerTransformation
      rw [Corr.find?_none_of_not_key _ _ hmem]
      simp [if_pos hx]
  · unfold Corr.applyPowerTransformation
    rw [Corr.findPT_one]
    rfl
  · unfold Corr.applyPowerTransformation
    rw [Corr.findPT_two]
    rfl
  · unfold Corr.applyPowerTransformation
    rw [Corr.findPT_three]
    rfl
  · intro hx
    unfold Corr.applyPowerTransformation
    rw [Corr.findPT_zero]
    simp [not_le.mpr hx]

/-- Counterexample to claim C3 as stated: the claim maps every
non-positive x to 0 for every lambda, but at `lambda = 2` the tabulated
square transform sends `x = -3` to 9. -/
theorem C3_counterexample :
    Corr.applyPowerTransformation [(-3 : ℝ)] 2 = [9] ∧ ((9 : ℝ) ≠ 0) := by
  constructor
  · unfold Corr.applyPowerTransformation
    rw [Corr.findPT_two]
    norm_num
  · norm_num

/-- Witness for the amended claim C3 at `lambda = 1/4` (outside the
table) and `x = -1`. -/
theorem C3_power_transform_witness :
    (((1:ℚ)/4) ∉ Corr.powerTransformations.map Prod.fst →
      Corr.applyPowerTransformation [(-1 : ℝ)] (1/4)
        = [if (-1 : ℝ) ≤ 0 then 0
           else if |(1:ℚ)/4| < 1/10000000000 then Real.log (-1)
           else ((-1 : ℝ) ^ (((1:ℚ)/4 : ℚ) : ℝ) - 1) / (((1:ℚ)/4 : ℚ) : ℝ)]) ∧
    ((-1 : ℝ) ≤ 0 → ((1:ℚ)/4) ≠ 1 → ((1:ℚ)/4) ≠ 2 → ((1:ℚ)/4) ≠ 3 →
      Corr.applyPowerTransformation [(-1 : ℝ)] (1/4) = [0]) ∧
    (Corr.applyPowerTransformation [(-1 : ℝ)] 1 = [(-1 : ℝ)] ∧
      Corr.applyPowerTransformation [(-1 : ℝ)] 2 = [(-1 : ℝ) * (-1)] ∧
      Corr.applyPowerTransformation [(-1 : ℝ)] 3 = [(-1 : ℝ) * (-1) * (-1)]) ∧
    (0 < (-1 : ℝ) → Corr.applyPowerTransformation [(-1 : ℝ)] 0 = [Real.log (-1)]) :=
  C3_power_transform_amended (1/4) (-1)

/-- Claim C6: for at least two selected variables, the produced
correlation matrix is symmetric cell-for-cell — equal coefficient, equal
p-value and equal significance flag at `(i, j)` and `(j, i)` — and every
diagonal cell is exactly `{coefficient = 1, pValue = 0,
isSignificant = true}`. -/
theorem C6_correlation_matrix_symmetric (vars : List String)
    (data : String → List ℝ) (hlen : 2 ≤ vars.length) (i j : Nat)
    (hi : i < vars.length) (hj : j < vars.length) :
    (((Corr.correlationMatrix vars data).getD i []).getD j ⟨0, 0, false⟩).coefficient
      = (((Corr.correlationMatrix vars data).getD j []).getD i ⟨0, 0, false⟩).coefficient ∧
    (((Corr.correlationMatrix vars data).getD i []).getD j ⟨0, 0, false⟩).pValue
      = (((Corr.correlationMatrix vars data).getD j []).getD i ⟨0, 0, false⟩).pValue ∧
    (((Corr.correlationMatrix vars data).getD i []).getD j ⟨0, 0, false⟩).isSignificant
      = (((Corr.correlationMatrix vars data).getD j []).getD i ⟨0, 0, false⟩).isSignificant ∧
    ((Corr.correlationMatrix vars data).getD i []).getD i ⟨0, 0, false⟩
      = ⟨1, 0, true⟩ := by
  have hsym : ((Corr.correlationMatrix vars data).getD i []).getD j ⟨0, 0, false⟩
      = ((Corr.correlationMatrix vars data).getD j []).getD i ⟨0, 0, false⟩ := by
    rw [Corr.correlationMatrix_entry vars data i j hi hj,
      Corr.correlationMatrix_entry vars data j i hj hi,
      Corr.corrEntry_symm]
  refine ⟨by rw [hsym], by rw [hsym], by rw [hsym], ?_⟩
  rw [Corr.correlationMatrix_entry vars data i i hi hi]
  unfold Corr.corrEntry
  rw [if_pos rfl]

/-- Witness for claim C6 at two variables over empty series data. -/
theorem C6_correlation_matrix_symmetric_witness :
    (((Corr.correlationMatrix ["a", "b"] (fun _ => [])).getD 0 []).getD 1
        ⟨0, 0, false⟩).coefficient
      = (((Corr.correlationMatrix ["a", "b"] (fun _ => [])).getD 1 []).getD 0
        ⟨0, 0, false⟩).coefficient ∧
    (((Corr.correlationMatrix ["a", "b"] (fun _ => [])).getD 0 []).getD 1
        ⟨0, 0, false⟩).pValue
      = (((Corr.correlationMatrix ["a", "b"] (fun _ => [])).getD 1 []).getD 0
        ⟨0, 0, false⟩).pValue ∧
    (((Corr.correlationMatrix ["a", "b"] (fun _ => [])).getD 0 []).getD 1
        ⟨0, 0, false⟩).isSignificant
      = (((Corr.correlationMatrix ["a", "b"] (fun _ => [])).getD 1 []).getD 0
        ⟨0, 0, false⟩).isSignificant ∧
    ((Corr.correlationMatrix ["a", "b"] (fun _ => [])).getD 0 []).getD 0
        ⟨0, 0, false⟩
      = ⟨1, 0, true⟩ :=
  C6_correlation_matrix_symmetric ["a", "b"] (fun _ => []) (by decide) 0 1
    (by decide) (by decide)

/-- Claim C5: degenerate numeric conditions never produce errors or
non-finite results.  A zero-variance series gets Pearson coefficient 0
(the explicit guard), a constant criterion column min-max-normalizes to
0.5 for every row (and its per-criterion score is 0.5), and on a
well-typed dataset — every criterion column fully numeric, so the
filtered columns align with the rows — every per-criterion score of both
ranking variants lies in [0, 1] and every overall score is a weighted sum
bounded by the total weight: all outputs are defined, finite numbers. -/
theorem C5_degenerate_totality (d : ExcelData) (evaluationColumn : String)
    (selectedVariables : List String) (w : String → ℚ) (evalIdx : Nat)
    (criteria : List (String × List ℚ))
    (hval : Rank.rankingValidation d evaluationColumn selectedVariables
      = Except.ok (evalIdx, criteria))
    (halign : ∀ p ∈ criteria, p.2.length = d.data.length)
    (hw : ∀ c : String, 0 ≤ w c) :
    (∀ (x y : List ℝ) (c : ℝ), x.length ≤ y.length → (∀ v ∈ x, v = c) →
      Corr.calculatePearsonCorrelation x y = 0) ∧
    (∀ (values : List ℚ) (cv : ℚ) (i : Nat), values ≠ [] →
      (∀ v ∈ values, v = cv) → i < values.length →
      (Rank.euclideanNormalized values).getD i 0 = 1/2 ∧
      Rank.euclideanScore values i = 1/2) ∧
    (∀ (values : List ℚ) (i : Nat), i < values.length →
      0 ≤ Rank.euclideanScore values i ∧ Rank.euclideanScore values i ≤ 1 ∧
      0 ≤ Rank.topsisScore values i ∧ Rank.topsisScore values i ≤ 1) ∧
    (∃ rows, Rank.performEuclideanDistance d evaluationColumn selectedVariables w
        = Except.ok rows ∧
      ∀ r ∈ rows, (∀ c ∈ selectedVariables,
        0 ≤ r.criteriaScores c ∧ r.criteriaScores c ≤ 1) ∧
        0 ≤ r.score ∧ r.score ≤ (selectedVariables.map w).sum) ∧
    (∃ rows, Rank.performTOPSIS d evaluationColumn selectedVariables w
        = Except.ok rows ∧
      ∀ r ∈ rows, (∀ c ∈ selectedVariables,
        0 ≤ r.criteriaScores c ∧ r.criteriaScores c ≤ 1) ∧
        0 ≤ r.score ∧ r.score ≤ (((selectedVariables.map w).sum : ℚ) : ℝ)) := by
  have hkeys : criteria.map Prod.fst = selectedVariables :=
    Rank.extractCriteria_keys d selectedVariables criteria
      (Rank.rankingValidation_ok d evaluationColumn selectedVariables
        evalIdx criteria hval).1
  have hsupp : (Rank.getSuppliers d evalIdx).length = d.data.length := by
    simp [Rank.getSuppliers]
  have hscoreE : ∀ s c, c ∈ selectedVariables →
      0 ≤ Rank.buildCriteriaScores (Rank.getSuppliers d evalIdx) selectedVariables
        criteria Rank.euclideanScore (0 : ℚ) s c ∧
      Rank.buildCriteriaScores (Rank.getSuppliers d evalIdx) selectedVariables
        criteria Rank.euclideanScore (0 : ℚ) s c ≤ 1 := by
    intro s c hc
    rw [Rank.buildCriteriaScores_apply _ _ _ _ _ _ _ hc]
    cases hlm : Rank.lastMatchAux (Rank.getSuppliers d evalIdx) s
        (Rank.getSuppliers d evalIdx).length with
    | none => norm_num
    | some j =>
      obtain ⟨hj, _⟩ := Rank.lastMatchAux_spec _ _ _ j hlm
      obtain ⟨p, hp, _, hlook⟩ := Rank.jsLookup_mem criteria c []
        (by rw [hkeys]; exact hc)
      rw [hlook]
      apply Rank.euclideanScore_bounds
      rw [halign p hp]
      rw [hsupp] at hj
      exact hj
  have hscoreT : ∀ s c, c ∈ selectedVariables →
      0 ≤ Rank.buildCriteriaScores (Rank.getSuppliers d evalIdx) selectedVariables
        criteria Rank.topsisScore (0 : ℝ) s c ∧
      Rank.buildCriteriaScores (Rank.getSuppliers d evalIdx) selectedVariables
        criteria Rank.topsisScore (0 : ℝ) s c ≤ 1 := by
    intro s c hc
    rw [Rank.buildCriteriaScores_apply _ _ _ _ _ _ _ hc]
    cases hlm : Rank.lastMatchAux (Rank.getSuppliers d evalIdx) s
        (Rank.getSuppliers d evalIdx).length with
    | none => norm_num
    | some j =>
      obtain ⟨_, _⟩ := Rank.lastMatchAux_spec _ _ _ j hlm
      obtain ⟨p, hp, _, hlook⟩ := Rank.jsLookup_mem criteria c []
        (by rw [hkeys]; exact hc)
      rw [hlook]
      exact Rank.topsisScore_bounds p.2 j
  refine ⟨?_, ?_, ?_, ?_, ?_⟩
  · intro x y c hlen hconst
    exact Corr.calculatePearsonCorrelation_const x y c hlen hconst
  · intro values cv i hne hconst hi
    exact ⟨Rank.euclideanNormalized_const values cv hne hconst i hi,
      Rank.euclideanScore_const values cv hne hconst i hi⟩
  · intro values i hi
    obtain ⟨h1, h2⟩ := Rank.euclideanScore_bounds values i hi
    obtain ⟨h3, h4⟩ := Rank.topsisScore_bounds values i
    exact ⟨h1, h2, h3, h4⟩
  · obtain ⟨rows, hok, _, hfields⟩ := Rank.performEuclideanDistance_ok_rows
      d evaluationColumn selectedVariables w evalIdx criteria hval
    refine ⟨rows, hok, ?_⟩
    intro r hr
    obtain ⟨hcs, _, hscore⟩ := hfields r hr
    refine ⟨?_, ?_, ?_⟩
    · intro c hc
      rw [hcs]
      exact hscoreE r.supplier c hc
    · rw [hscore]
      apply List.sum_nonneg
      intro t ht
      rcases List.mem_map.mp ht with ⟨c, hc, rfl⟩
      exact mul_nonneg (hscoreE r.supplier c hc).1 (hw c)
    · rw [hscore]
      apply List.sum_le_sum
      intro c hc
      exact mul_le_of_le_one_left (hw c) (hscoreE r.supplier c hc).2
  · obtain ⟨rows, hok, _, hfields⟩ := Rank.performTOPSIS_ok_rows
      d evaluationColumn selectedVariables w evalIdx criteria hval
    refine ⟨rows, hok, ?_⟩
    intro r hr
    obtain ⟨hcs, _, hscore⟩ := hfields r hr
    refine ⟨?_, ?_, ?_⟩
    · intro c hc
      rw [hcs]
      exact hscoreT r.supplier c hc
    · rw [hscore]
      apply List.sum_nonneg
      intro t ht
      rcases List.mem_map.mp ht with ⟨c, hc, rfl⟩
      apply mul_nonneg (hscoreT r.supplier c hc).1
      exact_mod_cast hw c
    · rw [hscore]
      have hcast : ∀ l : List String, (((l.map w).sum : ℚ) : ℝ)
          = (l.map (fun c => ((w c : ℚ) : ℝ))).sum := by
        intro l
        induction l with
        | nil => simp
        | cons a t ih => simp [ih]
      rw [hcast selectedVariables]
      apply List.sum_le_sum
      intro c hc
      apply mul_le_of_le_one_left _ (hscoreT r.supplier c hc).2
      exact_mod_cast hw c

/-- Witness for claim C5 at the concrete dataset of three rows and one
criterion column, with unit weights. -/
theorem C5_degenerate_totality_witness :
    (∀ (x y : List ℝ) (c : ℝ), x.length ≤ y.length → (∀ v ∈ x, v = c) →
      Corr.calculatePearsonCorrelation x y = 0) ∧
    (∀ (values : List ℚ) (cv : ℚ) (i : Nat), values ≠ [] →
      (∀ v ∈ values, v = cv) → i < values.length →
      (Rank.euclideanNormalized values).getD i 0 = 1/2 ∧
      Rank.euclideanScore values i = 1/2) ∧
    (∀ (values : List ℚ) (i : Nat), i < values.length →
      0 ≤ Rank.euclideanScore values i ∧ Rank.euclideanScore values i ≤ 1 ∧
      0 ≤ Rank.topsisScore values i ∧ Rank.topsisScore values i ≤ 1) ∧
    (∃ rows, Rank.performEuclideanDistance
        ⟨["S", "A"], [[Cell.text "x", Cell.num 1], [Cell.null, Cell.num 2],
          [Cell.text "x", Cell.num 3]]⟩ "S" ["A"] (fun _ => 1)
        = Except.ok rows ∧
      ∀ r ∈ rows, (∀ c ∈ ["A"],
        0 ≤ r.criteriaScores c ∧ r.criteriaScores c ≤ 1) ∧
        0 ≤ r.score ∧ r.score ≤ ((["A"].map (fun _ => (1 : ℚ))).sum)) ∧
    (∃ rows, Rank.performTOPSIS
        ⟨["S", "A"], [[Cell.text "x", Cell.num 1], [Cell.null, Cell.num 2],
          [Cell.text "x", Cell.num 3]]⟩ "S" ["A"] (fun _ => 1)
        = Except.ok rows ∧
      ∀ r ∈ rows, (∀ c ∈ ["A"],
        0 ≤ r.criteriaScores c ∧ r.criteriaScores c ≤ 1) ∧
        0 ≤ r.score ∧ r.score ≤ (((["A"].map (fun _ => (1 : ℚ))).sum : ℚ) : ℝ)) :=
  C5_degenerate_totality
    ⟨["S", "A"], [[Cell.text "x", Cell.num 1], [Cell.null, Cell.num 2],
      [Cell.text "x", Cell.num 3]]⟩ "S" ["A"] (fun _ => 1) 0 [("A", [1, 2, 3])]
    rfl
    (by
      intro p hp
      rcases List.mem_singleton.mp hp with rfl
      rfl)
    (by intro c; norm_num)

/-- Claim C10: in both ranking variants the per-criterion scores live in a
map keyed by the alternative's identifier string.  Rows with a missing
identifier map to the empty string and are still ranked (the result has
one row per data row), any two result rows sharing an identifier carry
literally the same per-criterion score map, and the stored score for
identifier `s` and criterion `c` is the one computed at the LAST row
index whose identifier is `s` — earlier duplicates are overwritten. -/
theorem C10_identifier_keyed_scores (d : ExcelData) (evaluationColumn : String)
    (selectedVariables : List String) (w : String → ℚ) (evalIdx : Nat)
    (criteria : List (String × List ℚ))
    (hval : Rank.rankingValidation d evaluationColumn selectedVariables
      = Except.ok (evalIdx, criteria)) :
    jsToStringOrEmpty Cell.null = "" ∧
    (∃ rows, Rank.performEuclideanDistance d evaluationColumn selectedVariables w
        = Except.ok rows ∧
      rows.length = d.data.length ∧
      (∀ r1 ∈ rows, ∀ r2 ∈ rows, r1.supplier = r2.supplier →
        r1.criteriaScores = r2.criteriaScores) ∧
      (∀ r ∈ rows, ∀ c ∈ selectedVariables,
        r.criteriaScores c
          = match Rank.lastMatchAux (Rank.getSuppliers d evalIdx) r.supplier
              (Rank.getSuppliers d evalIdx).length with
            | some j => Rank.euclideanScore (Rank.jsLookup criteria c []) j
            | none => 0)) ∧
    (∃ rows, Rank.performTOPSIS d evaluationColumn selectedVariables w
        = Except.ok rows ∧
      rows.length = d.data.length ∧
      (∀ r1 ∈ rows, ∀ r2 ∈ rows, r1.supplier = r2.supplier →
        r1.criteriaScores = r2.criteriaScores) ∧
      (∀ r ∈ rows, ∀ c ∈ selectedVariables,
        r.criteriaScores c
          = match Rank.lastMatchAux (Rank.getSuppliers d evalIdx) r.supplier
              (Rank.getSuppliers d evalIdx).length with
            | some j => Rank.topsisScore (Rank.jsLookup criteria c []) j
            | none => 0)) := by
  refine ⟨rfl, ?_, ?_⟩
  · obtain ⟨rows, hok, hlen, hfields⟩ :=
      Rank.performEuclideanDistance_ok_rows d evaluationColumn selectedVariables
        w evalIdx criteria hval
    refine ⟨rows, hok, hlen, ?_, ?_⟩
    · intro r1 h1 r2 h2 hsup
      rw [(hfields r1 h1).1, (hfields r2 h2).1, hsup]
    · intro r hr c hc
      rw [(hfields r hr).1]
      exact Rank.buildCriteriaScores_apply _ _ _ _ _ _ _ hc
  · obtain ⟨rows, hok, hlen, hfields⟩ :=
      Rank.performTOPSIS_ok_rows d evaluationColumn selectedVariables
        w evalIdx criteria hval
    refine ⟨rows, hok, hlen, ?_, ?_⟩
    · intro r1 h1 r2 h2 hsup
      rw [(hfields r1 h1).1, (hfields r2 h2).1, hsup]
    · intro r hr c hc
      rw [(hfields r hr).1]
      exact Rank.buildCriteriaScores_apply _ _ _ _ _ _ _ hc

/-- Witness for claim C10 at a concrete dataset with a duplicated
identifier ("x" in rows 0 and 2) and a missing identifier (row 1). -/
theorem C10_identifier_keyed_scores_witness :
    jsToStringOrEmpty Cell.null = "" ∧
    (∃ rows, Rank.performEuclideanDistance
        ⟨["S", "A"], [[Cell.text "x", Cell.num 1], [Cell.null, Cell.num 2],
          [Cell.text "x", Cell.num 3]]⟩ "S" ["A"] (fun _ => 1)
        = Except.ok rows ∧
      rows.length = (⟨["S", "A"], [[Cell.text "x", Cell.num 1], [Cell.null, Cell.num 2],
          [Cell.text "x", Cell.num 3]]⟩ : ExcelData).data.length ∧
      (∀ r1 ∈ rows, ∀ r2 ∈ rows, r1.supplier = r2.supplier →
        r1.criteriaScores = r2.criteriaScores) ∧
      (∀ r ∈ rows, ∀ c ∈ ["A"],
        r.criteriaScores c
          = match Rank.lastMatchAux (Rank.getSuppliers
              ⟨["S", "A"], [[Cell.text "x", Cell.num 1], [Cell.null, Cell.num 2],
                [Cell.text "x", Cell.num 3]]⟩ 0) r.supplier
              (Rank.getSuppliers ⟨["S", "A"], [[Cell.text "x", Cell.num 1],
                [Cell.null, Cell.num 2], [Cell.text "x", Cell.num 3]]⟩ 0).length with
            | some j => Rank.euclideanScore (Rank.jsLookup [("A", [1, 2, 3])] c []) j
            | none => 0)) ∧
    (∃ rows, Rank.performTOPSIS
        ⟨["S", "A"], [[Cell.text "x", Cell.num 1], [Cell.null, Cell.num 2],
          [Cell.text "x", Cell.num 3]]⟩ "S" ["A"] (fun _ => 1)
        = Except.ok rows ∧
      rows.length = (⟨["S", "A"], [[Cell.text "x", Cell.num 1], [Cell.null, Cell.num 2],
          [Cell.text "x", Cell.num 3]]⟩ : ExcelData).data.length ∧
      (∀ r1 ∈ rows, ∀ r2 ∈ rows, r1.supplier = r2.supplier →
        r1.criteriaScores = r2.criteriaScores) ∧
      (∀ r ∈ rows, ∀ c ∈ ["A"],
        r.criteriaScores c
          = match Rank.lastMatchAux (Rank.getSuppliers
              ⟨["S", "A"], [[Cell.text "x", Cell.num 1], [Cell.null, Cell.num 2],
                [Cell.text "x", Cell.num 3]]⟩ 0) r.supplier
              (Rank.getSuppliers ⟨["S", "A"], [[Cell.text "x", Cell.num 1],
                [Cell.null, Cell.num 2], [Cell.text "x", Cell.num 3]]⟩ 0).length with
            | some j => Rank.topsisScore (Rank.jsLookup [("A", [1, 2, 3])] c []) j
            | none => 0)) :=
  C10_identifier_keyed_scores
    ⟨["S", "A"], [[Cell.text "x", Cell.num 1], [Cell.null, Cell.num 2],
      [Cell.text "x", Cell.num 3]]⟩ "S" ["A"] (fun _ => 1) 0 [("A", [1, 2, 3])] rfl

/-- Claim C4 (amended): for every selected column the correlation analyzer
keeps the rows whose cell parses as a number — a null/empty cell parses as
0 via the `|| '0'` default and so contributes the value 0 — and drops the
rows whose cell is non-numeric text, preserving order; on success every
selected variable maps to its (non-empty) extracted
series, and on failure the error names an offending column: either a
column absent from the headers or one whose extraction is empty (which
requires every cell to be non-numeric text). -/
theorem C4_extraction_amended (d : ExcelData) (vars : List String) :
    jsParseFloatOrZero Cell.null = some 0 ∧
    (∀ s, jsParseFloatOrZero (Cell.text s) = none) ∧
    (∀ q, jsParseFloatOrZero (Cell.num q) = some q) ∧
    (∀ idx, Corr.extractColumnOrZero d idx
      = d.data.filterMap (fun row => jsParseFloatOrZero (cellAt row idx))) ∧
    (∀ m, Corr.extractVariableData d vars = Except.ok m →
      m.map Prod.fst = vars ∧
      ∀ p ∈ m, p.2 = Corr.extractColumnOrZero d (d.headers.indexOf p.1) ∧ p.2 ≠ []) ∧
    (∀ e, Corr.extractVariableData d vars = Except.error e →
      ∃ v ∈ vars,
        (e = "Variable '" ++ v ++ "' not found in data."
          ∧ d.headers.indexOf v = d.headers.length) ∨
        (e = "Variable '" ++ v ++ "' contains no numeric data."
          ∧ Corr.extractColumnOrZero d (d.headers.indexOf v) = [])) :=
  ⟨rfl, fun _ => rfl, fun _ => rfl,
   fun idx => Corr.extractColumnOrZero_filterMap d idx,
   fun m h => Corr.extractVariableData_ok d vars m h,
   fun e h => Corr.extractVariableData_error d vars e h⟩

/-- Counterexample to claim C4 as stated: in a one-column dataset whose
middle cell is null, the extracted series is `[1, 0, 3]` — the null cell
contributes the value 0 instead of being dropped (the claim predicts
`[1, 3]`). -/
theorem C4_counterexample :
    Corr.extractVariableData ⟨["A"], [[Cell.num 1], [Cell.null], [Cell.num 3]]⟩ ["A"]
      = Except.ok [("A", [1, 0, 3])] ∧
    ([1, 0, 3] : List ℚ) ≠ [1, 3] := by
  constructor
  · rfl
  · simp

/-- Claim C8 (amended): `roundLambda` returns a member of
`{-2, -1, -0.5, 0, 0.5, 1, 2, 3}` at minimal absolute difference from
`lambda`; on an exact tie the smaller member is returned, except that the
initial candidate 1 wins every tie it takes part in (the scan starts at
`closestLambda = 1` and replaces it only on a strictly smaller
difference).  Hence at `lambda = 0.75` — equidistant from 0.5 and 1 — the
result is 1, not the smaller 0.5. -/
theorem C8_round_lambda_amended (lambda : ℚ) :
    Corr.roundLambda lambda ∈ Corr.commonLambdas ∧
    (∀ l ∈ Corr.commonLambdas,
      |lambda - Corr.roundLambda lambda| ≤ |lambda - l|) ∧
    (|lambda - 1| ≤ |lambda - Corr.roundLambda lambda| →
      Corr.roundLambda lambda = 1) ∧
    (∀ l ∈ Corr.commonLambdas,
      |lambda - l| = |lambda - Corr.roundLambda lambda| →
      Corr.roundLambda lambda ≤ l ∨ Corr.roundLambda lambda = 1) := by
  obtain ⟨i1, i2, i3, i4, i5, i6⟩ := Corr.roundFold_inv lambda Corr.commonLambdas 1
  refine ⟨?_, ?_, ?_, ?_⟩
  · rcases i2 with h | h
    · unfold Corr.roundLambda
      rw [h]
      exact Corr.one_mem_commonLambdas
    · exact h
  · intro l hl
    unfold Corr.roundLambda
    rw [← i1]
    exact i4 l hl
  · intro h
    unfold Corr.roundLambda at h ⊢
    exact i5 (by rw [i1]; exact h)
  · intro l hl htie
    unfold Corr.roundLambda at htie ⊢
    obtain ⟨ls₁, ls₂, hdecomp⟩ := List.append_of_mem hl
    have htie' : |lambda - l|
        = (Corr.commonLambdas.foldl (Corr.roundStep lambda) (1, |lambda - 1|)).2 := by
      rw [i1]; exact htie
    rcases i6 ls₁ l ls₂ hdecomp htie' with h | h | h
    · exact Or.inr h
    · left
      have hsorted := Corr.commonLambdas_sorted
      rw [hdecomp] at hsorted
      obtain ⟨_, _, hcross⟩ := List.pairwise_append.mp hsorted
      exact hcross _ h l (List.mem_cons_self l ls₂)
    · exact Or.inl (le_of_eq h)

/-- Witness for the amended claim C8 at the concrete input `lambda = 0.3`. -/
theorem C8_round_lambda_witness :
    Corr.roundLambda (3/10) ∈ Corr.commonLambdas ∧
    (∀ l ∈ Corr.commonLambdas,
      |(3/10 : ℚ) - Corr.roundLambda (3/10)| ≤ |(3/10 : ℚ) - l|) ∧
    (|(3/10 : ℚ) - 1| ≤ |(3/10 : ℚ) - Corr.roundLambda (3/10)| →
      Corr.roundLambda (3/10) = 1) ∧
    (∀ l ∈ Corr.commonLambdas,
      |(3/10 : ℚ) - l| = |(3/10 : ℚ) - Corr.roundLambda (3/10)| →
      Corr.roundLambda (3/10) ≤ l ∨ Corr.roundLambda (3/10) = 1) :=
  C8_round_lambda_amended (3/10)

/-- Counterexample to claim C8 as stated: at `lambda = 0.75` the members
0.5 and 1 of the fixed list are equally close (distance 1/4), the claim
says the smaller member 0.5 is returned, but `roundLambda` returns 1. -/
theorem C8_counterexample :
    Corr.roundLambda (3/4) = 1 ∧
    ((1:ℚ)/2) ∈ Corr.commonLambdas ∧
    |(3/4 : ℚ) - 1/2| = |(3/4 : ℚ) - Corr.roundLambda (3/4)| ∧
    ((1:ℚ)/2) < Corr.roundLambda (3/4) := by
  have e1 : |(3/4 : ℚ) - 1| = 1/4 := by rw [abs_of_nonpos (by norm_num)]; norm_num
  have e2 : |(3/4 : ℚ) - -2| = 11/4 := by rw [abs_of_nonneg (by norm_num)]; norm_num
  have e3 : |(3/4 : ℚ) - -1| = 7/4 := by rw [abs_of_nonneg (by norm_num)]; norm_num
  have e4 : |(3/4 : ℚ) - -(1/2)| = 5/4 := by rw [abs_of_nonneg (by norm_num)]; norm_num
  have e5 : |(3/4 : ℚ) - 0| = 3/4 := by rw [abs_of_nonneg (by norm_num)]; norm_num
  have e6 : |(3/4 : ℚ) - 1/2| = 1/4 := by rw [abs_of_nonneg (by norm_num)]; norm_num
  have e7 : |(3/4 : ℚ) - 2| = 5/4 := by rw [abs_of_nonpos (by norm_num)]; norm_num
  have e8 : |(3/4 : ℚ) - 3| = 9/4 := by rw [abs_of_nonpos (by norm_num)]; norm_num
  have hval : Corr.roundLambda (3/4) = 1 := by
    simp only [Corr.roundLambda, Corr.commonLambdas, List.foldl, Corr.roundStep]
    norm_num [e1, e2, e3, e4, e5, e6, e7, e8, abs_of_nonneg]
  refine ⟨hval, by norm_num [Corr.commonLambdas], ?_, ?_⟩
  · rw [hval, e1, e6]
  · rw [hval]; norm_num

/-- Counterexample to claim C1 as stated: with selected weights
`{T: 0.03, O: 0.97}` (summing to 1, all non-negative) and goal maximize,
the optimizer sets the target weight to `min(0.9, 0.06) = 0.06`, which
lies outside the claimed hard interval `[0.1, 0.9]`. -/
theorem C1_counterexample :
    ((([("T", 3/100), ("O", 97/100)] : List (String × ℚ)).map Prod.snd).sum = 1) ∧
    (∀ p ∈ ([("T", (3:ℚ)/100), ("O", 97/100)] : List (String × ℚ)), 0 ≤ p.2) ∧
    (∃ p ∈ Sens.runSensitivityWeights [("T", 3/100), ("O", 97/100)] "T" Sens.OptGoal.maximize,
      p.1 = "T" ∧ p.2 < 1/10) := by
  refine ⟨by norm_num, ?_, ?_⟩
  · intro p hp
    rcases List.mem_cons.mp hp with h | h
    · rw [h]; norm_num
    · rw [List.mem_singleton.mp h]; norm_num
  · have hbest : Sens.bestTargetWeight [("T", 3/100), ("O", 97/100)] "T"
        Sens.OptGoal.maximize = 3/50 := by
      simp [Sens.bestTargetWeight, Sens.origW, List.find?]
      norm_num
    have htot : Sens.totalOtherWeight [("T", (3:ℚ)/100), ("O", 97/100)] "T" = 97/100 := by
      simp [Sens.totalOtherWeight, Sens.otherCategories, Sens.origW, List.find?, List.filter]
    have hout : Sens.runSensitivityWeights [("T", 3/100), ("O", 97/100)] "T"
        Sens.OptGoal.maximize = [("T", 3/50), ("O", 47/50)] := by
      simp [Sens.runSensitivityWeights, hbest, htot, Sens.origW, List.find?]
      norm_num
    refine ⟨("T", 3/50), ?_, rfl, by norm_num⟩
    rw [hout]
    exact List.mem_cons_self _ _

/-- Witness for the amended claim C1 at the concrete weight map
`{A: 0.6, B: 0.4}` with target `A` and goal maximize. -/
theorem C1_sensitivity_optimizer_witness :
    (∀ p ∈ Sens.runSensitivityWeights [("A", 3/5), ("B", 2/5)] "A" Sens.OptGoal.maximize,
      p.1 = "A" →
      (Sens.OptGoal.maximize = Sens.OptGoal.maximize →
        p.2 = min (9/10) (Sens.origW [("A", 3/5), ("B", 2/5)] "A" * 2)) ∧
      (Sens.OptGoal.maximize = Sens.OptGoal.minimize →
        p.2 = max (1/10) (Sens.origW [("A", 3/5), ("B", 2/5)] "A" / 2)) ∧
      p.2 ≤ 9/10 ∧
      (Sens.OptGoal.maximize = Sens.OptGoal.minimize → 1/10 ≤ p.2) ∧
      (Sens.OptGoal.maximize = Sens.OptGoal.maximize →
        1/20 ≤ Sens.origW [("A", 3/5), ("B", 2/5)] "A" → 1/10 ≤ p.2)) ∧
    ((Sens.runSensitivityWeights [("A", 3/5), ("B", 2/5)] "A"
        Sens.OptGoal.maximize).map Prod.snd).sum = 1 ∧
    |((Sens.runSensitivityWeights [("A", 3/5), ("B", 2/5)] "A"
        Sens.OptGoal.maximize).map Prod.snd).sum - 1| ≤ 1/1000000 :=
  Sens.C1_sensitivity_optimizer_amended [("A", 3/5), ("B", 2/5)] "A" Sens.OptGoal.maximize
    (by decide) (by decide) (by decide) (by norm_num)
    (by
      intro p hp
      rcases List.mem_cons.mp hp with h | h
      · rw [h]; norm_num
      · rw [List.mem_singleton.mp h]; norm_num)

/- ------------------------------------------------------------------ -/
/- EarlyDetection.tsx: extractData / runPrediction state (claim C9)   -/
/- ------------------------------------------------------------------ -/

namespace ED

/-- The trend classification enum. -/
inductive Trend where
  | up
  | down
  | stable
deriving DecidableEq

/-- One row surviving the extraction filter: its identifier string, its
raw time cell and the category values that parsed as numbers (in
category-column order). -/
structure PerfEntry where
  supplier : String
  time : Cell
  cats : List (String × ℚ)
deriving DecidableEq

/-- A per-(supplier, category) observation series: parallel value and
time-label sequences in input row order. -/
abbrev SupplierHistory :=
  List (String × List (String × (List ℚ × List Cell)))

/-- A prediction row of `runPrediction`. -/
structure PredictionResult where
  supplier : String
  category : String
  actualValues : List ℚ
  predictedValues : List ℚ
  nextPrediction : ℚ
  accuracy : ℚ
  trend : Trend
  letterGrade : String
  predictedLetterGrade : String

/-- The component state that `runPrediction` reads and writes. -/
structure EDState where
  supplierHistory : SupplierHistory
  predictionResults : List PredictionResult
  overallAccuracy : ℚ
  cdGradeAccuracy : ℚ

/-- `getLetterGrade`. -/
def getLetterGrade (score : ℚ) : String :=
  if score ≥ 85 then "A"
  else if score ≥ 70 then "B"
  else if score ≥ 50 then "C"
  else "D"

/-- `calculateAccuracy`: `100 - mean absolute error`, 0 on a length
mismatch or empty input. -/
def calculateAccuracy (actual predicted : List ℚ) : ℚ :=
  if actual.length = 0 ∨ predicted.length ≠ actual.length then 0
  else 100 - ((List.range actual.length).map
    (fun i => |actual.getD i 0 - predicted.getD i 0|)).sum / (actual.length : ℚ)

/-- `calculateTrend`: percent change of the last smoothed value against
the previous one, classified by the decline threshold.  (A zero previous
value divides by zero; rational division then yields 0 where JavaScript
yields an infinity — the claims never exercise that input.) -/
def calculateTrend (declineThreshold : ℚ) (lastPredictions : List ℚ) : Trend :=
  if lastPredictions.length < 2 then Trend.stable
  else
    let lastValue := lastPredictions.getD (lastPredictions.length - 1) 0
    let prevValue := lastPredictions.getD (lastPredictions.length - 2) 0
    let percentChange := (lastValue - prevValue) / prevValue * 100
    if percentChange > declineThreshold then Trend.up
    else if percentChange < -declineThreshold then Trend.down
    else Trend.stable

/-- First lookup of a category value in a `PerfEntry`
(`typeof entry[category] === 'number'`). -/
def catValue (cats : List (String × ℚ)) (c : String) : Option ℚ :=
  (cats.find? (fun p => p.1 = c)).map Prod.snd

/-- Append one observation to the (supplier, category) series, creating
the supplier and category groups on first use (JavaScript object keys keep
insertion order). -/
def pushCat (cats : List (String × (List ℚ × List Cell))) (c : String)
    (v : ℚ) (t : Cell) : List (String × (List ℚ × List Cell)) :=
  match cats with
  | [] => [(c, ([v], [t]))]
  | (c', p) :: rest =>
    if c' = c then (c', (p.1 ++ [v], p.2 ++ [t])) :: rest
    else (c', p) :: pushCat rest c v t

def pushObs (h : SupplierHistory) (s : String) (c : String) (v : ℚ) (t : Cell) :
    SupplierHistory :=
  match h with
  | [] => [(s, pushCat [] c v t)]
  | (s', cats) :: rest =>
    if s' = s then (s', pushCat cats c v t) :: rest
    else (s', cats) :: pushObs rest s c v t

/-- The row filter and per-row parse of `extractData`: rows with a falsy
time or identifier cell are skipped, each category cell is parsed with
`parseFloat(... || '')` (null/empty is `NaN` here), and a row survives
only if at least one category parses. -/
def extractEntries (d : ExcelData) (timeIdx supplierIdx : Nat)
    (categoryIndices : List (String × Nat)) : List PerfEntry :=
  d.data.filterMap (fun row =>
    if jsTruthy (cellAt row timeIdx) = false ∨
        jsTruthy (cellAt row supplierIdx) = false then none
    else
      let cats := categoryIndices.filterMap (fun ci =>
        match jsParseFloatOrNaN (cellAt row ci.2) with
        | some v => some (ci.1, v)
        | none => none)
      if cats = [] then none
      else some { supplier := jsToStringOrEmpty (cellAt row supplierIdx)
                  time := cellAt row timeIdx
                  cats := cats })

/-- The grouping loop of `extractData`. -/
def groupHistory (entries : List PerfEntry) (categoryColumns : List String) :
    SupplierHistory :=
  entries.foldl (fun h e =>
    categoryColumns.foldl (fun h' col =>
      match catValue e.cats col with
      | some v => pushObs h' e.supplier col v e.time
      | none => h') h) []

/-- `extractData` of EarlyDetection.tsx: column validation, row
filtering/parsing, and grouping into the per-(supplier, category)
series. -/
def extractHistory (d : ExcelData) (timeColumn supplierColumn : String)
    (categoryColumns : List String) : Except String SupplierHistory :=
  if timeColumn = "" ∨ supplierColumn = "" ∨ categoryColumns = [] then
    Except.error "Please select required columns for analysis."
  else
    let timeIdx := d.headers.indexOf timeColumn
    let supplierIdx := d.headers.indexOf supplierColumn
    if timeIdx = d.headers.length ∨ supplierIdx = d.headers.length then
      Except.error "Selected columns not found in data."
    else
      match categoryColumns.find? (fun col =>
          d.headers.indexOf col = d.headers.length) with
      | some col => Except.error ("Category column '" ++ col ++ "' not found in data.")
      | none =>
        let entries := extractEntries d timeIdx supplierIdx
          (categoryColumns.map (fun col => (col, d.headers.indexOf col)))
        if entries = [] then Except.error "No valid data found for analysis."
        else Except.ok (groupHistory entries categoryColumns)

/-- A computable model of `a.supplier.localeCompare(b.supplier) <= 0`:
lexicographic comparison on code points. -/
def charListLe : List Char → List Char → Bool
  | [], _ => true
  | _ :: _, [] => false
  | a :: as, b :: bs =>
    if a.val < b.val then true
    else if b.val < a.val then false
    else charListLe as bs

def jsStringLe (a b : String) : Bool := charListLe a.data b.data

/-- The result comparator: declining entries sort first, then
alphabetically by supplier. -/
def predictionLe (a b : PredictionResult) : Bool :=
  if a.trend = Trend.down ∧ ¬(b.trend = Trend.down) then true
  else if ¬(a.trend = Trend.down) ∧ b.trend = Trend.down then false
  else jsStringLe a.supplier b.supplier

/-- The per-(supplier, category) prediction loop of `runPrediction`,
reading a given history: series shorter than 3 observations are skipped,
the rest get their smoothing, forecast, accuracy, trend and grades. -/
def resultsOf (history : SupplierHistory) (alpha declineThreshold : ℚ) :
    List PredictionResult :=
  history.flatMap (fun sc =>
    sc.2.flatMap (fun cd =>
      if cd.2.1.length < 3 then []
      else
        let actualValues := cd.2.1
        let smoothedValues := exponentialSmoothing cd.2.1 alpha
        let predictedValues := smoothedValues.dropLast
        [{ supplier := sc.1
           category := cd.1
           actualValues := actualValues
           predictedValues := predictedValues
           nextPrediction := smoothedValues.getD (smoothedValues.length - 1) 0
           accuracy := calculateAccuracy actualValues predictedValues
           trend := calculateTrend declineThreshold smoothedValues
           letterGrade := getLetterGrade (actualValues.getD (actualValues.length - 1) 0)
           predictedLetterGrade :=
             getLetterGrade (predictedValues.getD (predictedValues.length - 1) 0) }]))

/-- `runPrediction` as a state transition.  `extractData` computes the
fresh history and schedules `setSupplierHistory`, but the loop that
follows reads the `supplierHistory` STATE variable — the value from
before the call (React state updates apply only after the handler
returns).  The accuracy fields are updated only when their denominators
are positive, otherwise the previous state values persist. -/
def runPrediction (st : EDState) (d : ExcelData)
    (timeColumn supplierColumn : String) (categoryColumns : List String)
    (alpha declineThreshold : ℚ) : EDState :=
  match extractHistory d timeColumn supplierColumn categoryColumns with
  | Except.error _ => st
  | Except.ok h =>
    let raw := resultsOf st.supplierHistory alpha declineThreshold
    let gradeMatches := (raw.filter (fun r =>
      r.letterGrade = r.predictedLetterGrade)).length
    let cdTotal := (raw.filter (fun r =>
      r.letterGrade = "C" ∨ r.letterGrade = "D")).length
    let cdMatches := (raw.filter (fun r =>
      (r.letterGrade = "C" ∨ r.letterGrade = "D") ∧
        r.letterGrade = r.predictedLetterGrade)).length
    { supplierHistory := h
      predictionResults := raw.mergeSort predictionLe
      overallAccuracy := if 0 < raw.length
        then (gradeMatches : ℚ) / (raw.length : ℚ) * 100 else st.overallAccuracy
      cdGradeAccuracy := if 0 < cdTotal
        then (cdMatches : ℚ) / (cdTotal : ℚ) * 100 else st.cdGradeAccuracy }

end ED

/-- Claim C9 is a code bug: `runPrediction` calls `extractData()` — which
only SCHEDULES the `supplierHistory` state update — and then iterates
over the old `supplierHistory` value.  On the very first run over a valid
three-row dataset the prediction loop therefore sees the empty history
and produces no results; an identical second run sees the history stored
by the first and produces one result.  Two successive runs on identical
input thus differ, refuting both bit-identical re-runs and purity. -/
theorem C9_stale_state_theorem :
    (ED.runPrediction ⟨[], [], 0, 0⟩
      ⟨["T", "S", "V"],
       [[Cell.num 1, Cell.text "s", Cell.num 10],
        [Cell.num 2, Cell.text "s", Cell.num 20],
        [Cell.num 3, Cell.text "s", Cell.num 30]]⟩
      "T" "S" ["V"] (2/5) 5).predictionResults = [] ∧
    (ED.runPrediction
      (ED.runPrediction ⟨[], [], 0, 0⟩
        ⟨["T", "S", "V"],
         [[Cell.num 1, Cell.text "s", Cell.num 10],
          [Cell.num 2, Cell.text "s", Cell.num 20],
          [Cell.num 3, Cell.text "s", Cell.num 30]]⟩
        "T" "S" ["V"] (2/5) 5)
      ⟨["T", "S", "V"],
       [[Cell.num 1, Cell.text "s", Cell.num 10],
        [Cell.num 2, Cell.text "s", Cell.num 20],
        [Cell.num 3, Cell.text "s", Cell.num 30]]⟩
      "T" "S" ["V"] (2/5) 5).predictionResults ≠ [] := by
  have hex : ED.extractHistory
      ⟨["T", "S", "V"],
       [[Cell.num 1, Cell.text "s", Cell.num 10],
        [Cell.num 2, Cell.text "s", Cell.num 20],
        [Cell.num 3, Cell.text "s", Cell.num 30]]⟩
      "T" "S" ["V"]
      = Except.ok [("s", [("V", ([10, 20, 30],
          [Cell.num 1, Cell.num 2, Cell.num 3]))])] := by rfl
  have hs1 : ED.runPrediction ⟨[], [], 0, 0⟩
      ⟨["T", "S", "V"],
       [[Cell.num 1, Cell.text "s", Cell.num 10],
        [Cell.num 2, Cell.text "s", Cell.num 20],
        [Cell.num 3, Cell.text "s", Cell.num 30]]⟩
      "T" "S" ["V"] (2/5) 5
      = ⟨[("s", [("V", ([10, 20, 30], [Cell.num 1, Cell.num 2, Cell.num 3]))])],
         [], 0, 0⟩ := by
    unfold ED.runPrediction
    rw [hex]
    simp [ED.resultsOf, List.mergeSort_nil]
  refine ⟨by rw [hs1], ?_⟩
  rw [hs1]
  unfold ED.runPrediction
  rw [hex]
  simp only
  have hraw : (ED.resultsOf
      [("s", [("V", ([10, 20, 30], [Cell.num 1, Cell.num 2, Cell.num 3]))])]
      (2/5) 5).length = 1 := by
    simp [ED.resultsOf]
  intro hcontra
  have hlen := congrArg List.length hcontra
  rw [(List.mergeSort_perm _ _).length_eq, hraw] at hlen
  simp at hlen
